import Mathlib

/-
Verification of the sberbank-payment-client library (src/__init__.py and
src/exceptions.py) against its natural-language specification.

The embedding models Python values that can appear in the client's keyword
dictionaries and in decoded JSON gateway responses as the type `Val`
(strings, integers, booleans, None, and nested dicts).  Python dicts are
modelled as insertion-ordered association lists with unique keys
(`Dct`); `dSet` mirrors `d[k] = v` (update in place, else append) and
`dFind`/`dGet` mirror `d.get(k)`.  Python exceptions are modelled by the
`PyErr` type and fallible code returns `Except PyErr _`.

Character-level string functions (`str.title`, `str.isupper`, `str.lower`,
`str.isalnum`, `str.isdigit`) are modelled on the ASCII fragment, which is
the domain the specification's claims quantify over (keys made of letters,
digits, and the underscore separator).
-/

/-- A Python value as it appears in the client's parameter dicts and in
decoded JSON responses. -/
inductive Val where
  | vstr (s : String)
  | vint (n : Int)
  | vbool (b : Bool)
  | vnone
  | vdict (d : List (String × Val))
deriving Repr

/-- A Python dict: an insertion-ordered association list. -/
abbrev Dct := List (String × Val)

/-- Python `d.get(k)` returning `none` when the key is absent. -/
def dFind : Dct → String → Option Val
  | [], _ => none
  | (k2, v) :: r, k => if k2 = k then some v else dFind r k

/-- Python `d.get(k)` (absent key yields `None`). -/
def dGet (d : Dct) (k : String) : Val := (dFind d k).getD .vnone

/-- Python `d.get(k, default)`: the default applies only when the key is absent. -/
def dGetD (d : Dct) (k : String) (dv : Val) : Val := (dFind d k).getD dv

/-- Python `d[k] = v`: overwrite in place when the key exists, else append. -/
def dSet (d : Dct) (k : String) (v : Val) : Dct :=
  match d with
  | [] => [(k, v)]
  | (k2, w) :: r => if k2 = k then (k2, v) :: r else (k2, w) :: dSet r k v

/-- Python truthiness of a `Val`. -/
def truthy : Val → Bool
  | .vstr s => !s.isEmpty
  | .vint n => n != 0
  | .vbool b => b
  | .vnone => false
  | .vdict d => !d.isEmpty

/-- Python `isinstance(v, dict)`. -/
def isDict : Val → Bool
  | .vdict _ => true
  | _ => false

/-
Key-case translation, from `SberbankClient._snake_to_camel` and
`SberbankClient._camel_to_snake` (src/__init__.py lines 758-786).
-/

/-- Python `str.title()` on the ASCII fragment: a letter is uppercased when
the previous character is not a letter and lowercased otherwise; the flag
carries whether the previous character was a letter. -/
def titleAux (b : Bool) : List Char → List Char
  | [] => []
  | c :: cs =>
      (if c.isAlpha then (if b then c.toLower else c.toUpper) else c) :: titleAux c.isAlpha cs

/-- Python `_key[0].lower() + _key[1:]` in the case the string is
nonempty.  On the empty string the Python indexing raises IndexError:
that error path is modelled faithfully by `snakeKeyE` below, and
`lowerFirst []` is only ever reached where the translation is known to
succeed. -/
def lowerFirst : List Char → List Char
  | [] => []
  | c :: cs => c.toLower :: cs

/-- Key transformation of `_snake_to_camel` (lines 762-766): when the key
contains an underscore, `title()` it, keep only alphanumeric characters,
and lowercase the first character.  This is the successful-case value;
the faithful, fallible form of the transformation (raising IndexError
when the filtered string is empty) is `snakeKeyE`. -/
def snakeKeyL (k : List Char) : List Char :=
  if k.contains '_' then lowerFirst ((titleAux false k).filter Char.isAlphanum)
  else k

/-- The list comprehension of `_camel_to_snake` (line 779): prepend an
underscore to every uppercase letter and lowercase it. -/
def camelCore (k : List Char) : List Char :=
  (k.map fun c => if c.isUpper then ['_', c.toLower] else [c]).flatten

/-- Key transformation of `_camel_to_snake` (line 779): the comprehension
followed by `lstrip` of leading underscores. -/
def camelKeyL (k : List Char) : List Char :=
  (camelCore k).dropWhile (fun c => c == '_')

/-- String-level wrapper of `snakeKeyL`. -/
def snakeKeyS (k : String) : String := ⟨snakeKeyL k.data⟩

/-- String-level wrapper of `camelKeyL`. -/
def camelKeyS (k : String) : String := ⟨camelKeyL k.data⟩

mutual

/-- `SberbankClient._snake_to_camel` (lines 758-773): translate every key,
recursing into dict values. -/
def snake_to_camel : Dct → Dct
  | [] => []
  | (k, v) :: r => (snakeKeyS k, snakeValArg v) :: snake_to_camel r

/-- Value treatment inside `_snake_to_camel`: dict values are translated
recursively, all other values pass through. -/
def snakeValArg : Val → Val
  | .vdict d => .vdict (snake_to_camel d)
  | v => v

end

mutual

/-- `SberbankClient._camel_to_snake` (lines 775-786): translate every key,
recursing into dict values. -/
def camel_to_snake : Dct → Dct
  | [] => []
  | (k, v) :: r => (camelKeyS k, camelValArg v) :: camel_to_snake r

/-- Value treatment inside `_camel_to_snake`. -/
def camelValArg : Val → Val
  | .vdict d => .vdict (camel_to_snake d)
  | v => v

end

example : snakeKeyS "order_number" = "orderNumber" := by decide
example : snakeKeyS "nested_info" = "nestedInfo" := by decide
example : snakeKeyS "phase_1" = "phase1" := by decide
example : snakeKeyS "ab1c_d" = "ab1CD" := by decide
example : snakeKeyS "plain" = "plain" := by decide
example : camelKeyS "orderNumber" = "order_number" := by decide
example : camelKeyS "ErrorCode" = "error_code" := by decide
example : camelKeyS "ab1CD" = "ab1_c_d" := by decide
example : camelKeyS "phase1" = "phase1" := by decide
example :
    snake_to_camel [("order_number", .vstr "1"), ("nested_info", .vdict [("client_id", .vstr "x")])]
      = [("orderNumber", .vstr "1"), ("nestedInfo", .vdict [("clientId", .vstr "x")])] := rfl
example :
    camel_to_snake [("errorCode", .vint 0), ("orderId", .vstr "abc")]
      = [("error_code", .vint 0), ("order_id", .vstr "abc")] := rfl

/-
Exceptions (src/exceptions.py) and error handling
(`SberbankClient._handle_errors`, src/__init__.py lines 732-756).
-/

/-- The exceptions the client can raise.  `configError` is the bare
`raise Exception` in `__init__` (the configuration error of the spec);
`actionE` is `ActionException(message, code)`; `badResponse` carries the
HTTP status; `network` is `NetworkException`; `indexError`,
`attributeError` and `typeError` are the built-in Python exceptions the
code can raise. -/
inductive PyErr where
  | indexError
  | attributeError
  | typeError (msg : String)
  | configError
  | badRequest (msg : String)
  | badResponse (status : Nat)
  | actionE (message : Val) (code : Val)
  | network (msg : String)
deriving Repr

/-
The fallible form of `_snake_to_camel`.  A key that contains an
underscore but keeps no alphanumeric character after title-casing
(for example `_` or `__`) makes line 766's `_key[0]` raise IndexError.
The client's request path runs this translation (line 668) before
anything else in `execute`, so the error must be modelled there;
`snakeKeyL`/`snake_to_camel` above are the successful-case values used
by the translator claims, whose hypotheses exclude such keys.
-/

/-- Key transformation of `_snake_to_camel` with its IndexError: when the
key contains an underscore and title-casing plus the alphanumeric filter
leaves nothing, `_key[0]` raises IndexError; otherwise the transformed
key is returned. -/
def snakeKeyE (k : String) : Except PyErr String :=
  if k.data.contains '_' then
    match (titleAux false k.data).filter Char.isAlphanum with
    | [] => .error .indexError
    | c :: cs => .ok ⟨c.toLower :: cs⟩
  else .ok k

mutual

/-- `SberbankClient._snake_to_camel` with its IndexError: translate every
key (failing on a key that filters to nothing), recursing into dict
values. -/
def snake_to_camelE : Dct → Except PyErr Dct
  | [] => .ok []
  | (k, v) :: r => do
      let k2 ← snakeKeyE k
      let v2 ← snakeValArgE v
      let r2 ← snake_to_camelE r
      pure ((k2, v2) :: r2)

/-- Value treatment inside the fallible `_snake_to_camel`. -/
def snakeValArgE : Val → Except PyErr Val
  | .vdict d => do
      let d2 ← snake_to_camelE d
      pure (.vdict d2)
  | v => pure v

end

/-- A key on which `_snake_to_camel` does not raise: either no
underscore, or at least one alphanumeric character survives the
title-case filter. -/
def keySafe (k : String) : Bool :=
  if k.data.contains '_' then !((titleAux false k.data).filter Char.isAlphanum).isEmpty
  else true

mutual

/-- Every key of the dict (recursively through dict values) is `keySafe`,
so `_snake_to_camel` returns without raising. -/
def snakeSafeDict : Dct → Bool
  | [] => true
  | (k, v) :: r => keySafe k && snakeSafeVal v && snakeSafeDict r

/-- `snakeSafeDict` lifted to values. -/
def snakeSafeVal : Val → Bool
  | .vdict d => snakeSafeDict d
  | _ => true

end

example : snakeKeyE "order_number" = .ok "orderNumber" := rfl
example : snakeKeyE "_" = .error .indexError := rfl
example : snake_to_camelE [("_", .vnone)] = .error .indexError := rfl
example : snake_to_camelE [("a", .vdict [("__", .vnone)])] = .error .indexError := rfl

/-- Python `s.isdigit()` on ASCII: nonempty and all characters are digits. -/
def isDigitStr (s : String) : Bool := !s.data.isEmpty && s.data.all Char.isDigit

/-- Python `int(s)` for a digit string. -/
def digitsToInt (s : String) : Int :=
  Int.ofNat (s.data.foldl (fun a c => a * 10 + (c.toNat - 48)) 0)

/-- Lines 752-753: a string error code made of digits is coerced to an
integer; everything else passes through. -/
def coerceCode : Val → Val
  | .vstr s => if isDigitStr s then .vint (digitsToInt s) else .vstr s
  | v => v

/-- Python `error_code != ACTION_SUCCESS` (with `ACTION_SUCCESS = 0`),
stated as equality with 0: integers compare numerically, booleans compare
as their integer values, every other value differs from 0. -/
def pyEqZero : Val → Bool
  | .vint n => n == 0
  | .vbool b => !b
  | _ => false

/-- Python `response.get('error', {}).get(k)`: the default `{}` applies
only when the key `error` is absent; calling `.get` on a non-dict value
raises AttributeError. -/
def errField (r : Dct) (k : String) : Except PyErr Val :=
  match dGetD r "error" (.vdict []) with
  | .vdict d => .ok (dGet d k)
  | _ => .error .attributeError

/-- `SberbankClient._handle_errors` (lines 732-756): resolve an error code
(`errorCode`, else `ErrorMessage`, else `error.code`, default 0) and an
error message (`errorMessage`, else `ErrorMessage`, else `error.message`,
else `error.description`, default the generic Russian unknown-error
message), coerce a digit-string code to an integer, and raise
`ActionException(message, code)` when the code differs from 0. -/
def handle_errors (r : Dct) : Except PyErr Unit := do
  let errorCode ←
    if truthy (dGet r "errorCode") then pure (dGet r "errorCode")
    else if truthy (dGet r "ErrorMessage") then pure (dGet r "ErrorMessage")
    else do
      let v ← errField r "code"
      pure (if truthy v then v else Val.vint 0)
  let errorMessage ←
    if truthy (dGet r "errorMessage") then pure (dGet r "errorMessage")
    else if truthy (dGet r "ErrorMessage") then pure (dGet r "ErrorMessage")
    else do
      let m ← errField r "message"
      if truthy m then pure m
      else do
        let ds ← errField r "description"
        pure (if truthy ds then ds else Val.vstr "Неизвестная ошибка")
  let errorCode := coerceCode errorCode
  if pyEqZero errorCode then pure () else .error (.actionE errorMessage errorCode)

/-
Client construction (`SberbankClient.__init__`, lines 20-60).
-/

/-- The authentication attributes a constructed client holds: either
`self.token`, or `self.username` and `self.password`. -/
inductive Auth where
  | token (t : Val)
  | userPass (u p : Val)
deriving Repr

/-- The state a constructed `SberbankClient` holds.  `http_method` is
`none` when the attribute was never assigned (reading it then raises
AttributeError). -/
structure Config where
  api_uri : String
  auth : Auth
  language : Val
  currency : Val
  prefix_default : String
  prefix_apple : String
  prefix_google : String
  prefix_samsung : String
  http_method : Option String
deriving Repr

/-- Lines 26-35 of `__init__`: truthy username and password select
user/password mode (rejecting a simultaneous truthy token); otherwise a
truthy token selects token mode; otherwise construction fails with the
bare `raise Exception`. -/
def authOf (username password token : Val) : Except PyErr Auth :=
  if truthy username && truthy password then
    if truthy token then Except.error PyErr.configError
    else pure (Auth.userPass username password)
  else if truthy token then pure (Auth.token token)
  else Except.error PyErr.configError

/-- Lines 55-60 of `__init__`: a falsy `http_method` keyword leaves the
attribute unassigned (`none`); a truthy one must equal the string GET or
POST, else BadRequestException. -/
def methodOf (http_method : Val) : Except PyErr (Option String) :=
  if truthy http_method then
    match http_method with
    | .vstr s =>
        if s = "GET" ∨ s = "POST" then pure (some s)
        else Except.error (PyErr.badRequest "Только GET и POST доступны для использования")
    | _ => Except.error (PyErr.badRequest "Только GET и POST доступны для использования")
  else pure none

/-- `SberbankClient.__init__`: keyword arguments are `Val`s (absent ones are
`None`); the four prefix overrides use `kwargs.get(key, DEFAULT)`, modelled
as `Option String` (`none` = absent). -/
def init (api_uri : String) (username password token language currency http_method : Val)
    (pd pa pg ps : Option String) : Except PyErr Config := do
  let auth ← authOf username password token
  let hm ← methodOf http_method
  pure ⟨api_uri, auth, language, currency, pd.getD "/payment/rest/", pa.getD "/payment/applepay/",
        pg.getD "/payment/google/", ps.getD "/payment/samsung/", hm⟩

/-
Request dispatch (`SberbankClient.execute`, lines 659-730).
-/

/-- Whether the pattern list begins the given list (helper for the
substring test behind Python `str.find`). -/
def beginsWith : List Char → List Char → Bool
  | [], _ => true
  | _ :: _, [] => false
  | p :: ps, c :: cs => p == c && beginsWith ps cs

/-- Python `haystack.find(needle) != -1`: the needle occurs somewhere in
the haystack. -/
def occursIn (p : List Char) : List Char → Bool
  | [] => p.isEmpty
  | c :: cs => beginsWith p (c :: cs) || occursIn p cs

/-- Lines 670-671: an action not starting with a slash gets the default
REST prefix prepended; indexing `action[0]` on an empty action raises
IndexError. -/
def resolveAction (cfg : Config) (action : String) : Except PyErr String :=
  match action.data with
  | [] => .error .indexError
  | c :: _ => .ok (if c ≠ '/' then cfg.prefix_default ++ action else action)

/-- Line 673: `action.find(self.prefix_default) != -1` — the classic
(REST) versus wallet classification. -/
def isClassic (cfg : Config) (act : String) : Bool :=
  occursIn cfg.prefix_default.data act.data

/-- Lines 676-677: inject the configured default language when the caller
did not send a truthy one. -/
def withLanguage (cfg : Config) (d : Dct) : Dct :=
  if !truthy (dGet d "language") && truthy cfg.language then dSet d "language" cfg.language
  else d

/-- Lines 685-689: classic endpoints get the stored credentials injected
into the parameter dict (`token`, or `userName` and `password`). -/
def injectAuth : Auth → Dct → Dct
  | .token t, d => dSet d "token" t
  | .userPass u p, d => dSet (dSet d "userName" u) "password" p

/-- The serialized request body: `urlencode(data)` for classic endpoints,
`json.dumps(data)` for wallet endpoints, each kept with the dict it
serializes. -/
inductive Payload where
  | form (d : Dct)
  | jsonBody (d : Dct)
deriving Repr

/-- The request handed to `self.session.request` (method, url, headers,
data). -/
structure Request where
  method : String
  url : String
  headers : List (String × String)
  body : Payload
deriving Repr

/-- Lines 668-696 of `execute`: translate the kwargs to gateway case
(line 668, which raises IndexError on a key that filters to nothing,
before anything else runs), resolve the action path, classify it, apply
the default language, read the configured verb (AttributeError when
`http_method` was never assigned), then build the outgoing request:
classic endpoints get credentials injected, a form-urlencoded content
type, the configured verb and a urlencoded body; wallet endpoints get a
JSON content type, the POST verb and a JSON body, with no credential
injection. -/
def buildRequest (cfg : Config) (action : String) (kw : Dct) : Except PyErr Request := do
  let data ← snake_to_camelE kw
  let act ← resolveAction cfg action
  let uri := cfg.api_uri ++ act
  let data := withLanguage cfg data
  match cfg.http_method with
  | none => .error .attributeError
  | some m =>
      if isClassic cfg act then
        let data := injectAuth cfg.auth data
        pure ⟨m, uri,
          [("Cache-Control", "no-cache"), ("Content-Type", "application/x-www-form-urlencoded")],
          .form data⟩
      else
        pure ⟨"POST", uri,
          [("Cache-Control", "no-cache"), ("Content-Type", "application/json")],
          .jsonBody data⟩

/-- What the injected transport does with the request: raise
`aiohttp.ClientConnectorError`, or answer with an HTTP status and a
decoded JSON body (the claims only concern dict-shaped bodies). -/
inductive Outcome where
  | connFail
  | resp (status : Nat) (body : Dct)

/-- Lines 698-730 of `execute`: build the request, perform it; a connector
error becomes `NetworkException('Сбербанк недоступен')`; a non-200 status
becomes `BadResponseException`; otherwise the decoded body goes through
`_handle_errors` (an `ActionException` is logged and re-raised unchanged)
and on success the response is translated back to caller case. -/
def execute (cfg : Config) (action : String) (kw : Dct) (oc : Outcome) : Except PyErr Dct := do
  let _req ← buildRequest cfg action kw
  match oc with
  | .connFail => .error (.network "Сбербанк недоступен")
  | .resp status body =>
      if status ≠ 200 then .error (.badResponse status)
      else do
        handle_errors body
        pure (camel_to_snake body)

/-
Action methods (the claims exercise order registration and the two
fixed-path wallet actions).
-/

/-- Lines 144-149 of `do_register_order`: set the required parameters and
default the currency. -/
def regKw (cfg : Config) (order_number amount return_url : Val) (kw : Dct) : Dct :=
  let kw := dSet kw "orderNumber" order_number
  let kw := dSet kw "amount" amount
  let kw := dSet kw "returnUrl" return_url
  if !truthy (dGet kw "currency") && truthy cfg.currency then dSet kw "currency" cfg.currency
  else kw

/-- `SberbankClient.do_register_order` (lines 120-155): assemble the
parameters, reject a truthy dict `jsonParams` (the inverted isinstance
check: TypeError exactly when it IS a dict), then execute. -/
def do_register_order (cfg : Config) (order_number amount return_url : Val) (method : String)
    (kw : Dct) (oc : Outcome) : Except PyErr Dct :=
  let kw := regKw cfg order_number amount return_url kw
  if truthy (dGet kw "jsonParams") then
    if isDict (dGet kw "jsonParams") then
      .error (.typeError "\"jsonParams\" должен быть типа dict")
    else execute cfg method kw oc
  else execute cfg method kw oc

/-- `SberbankClient.register_order` (lines 62-89). -/
def register_order (cfg : Config) (order_number amount return_url : Val) (kw : Dct)
    (oc : Outcome) : Except PyErr Dct :=
  do_register_order cfg order_number amount return_url (cfg.prefix_default ++ "register.do") kw oc

/-- `SberbankClient.register_order_preauth` (lines 91-118). -/
def register_order_preauth (cfg : Config) (order_number amount return_url : Val) (kw : Dct)
    (oc : Outcome) : Except PyErr Dct :=
  do_register_order cfg order_number amount return_url
    (cfg.prefix_default ++ "registerPreAuth.do") kw oc

/-- `SberbankClient.pay_with_applepay_recurrent` (lines 325-349): note the
action literal `payment/recurrentPayment.do` has no leading slash, and the
third parameter is stored under the untranslated key `binding_id`. -/
def pay_with_applepay_recurrent (cfg : Config) (order_number amount binding_id : Val) (kw : Dct)
    (oc : Outcome) : Except PyErr Dct :=
  let kw := dSet kw "orderNumber" order_number
  let kw := dSet kw "amount" amount
  let kw := dSet kw "binding_id" binding_id
  execute cfg "payment/recurrentPayment.do" kw oc

/-- `SberbankClient.pay_with_samsungpay_web` (lines 385-403): fresh kwargs
`mdOrder` and `onFailedPaymentBackUrl`, action literal
`payment/samsungWeb/payment.do` without a leading slash. -/
def pay_with_samsungpay_web (cfg : Config) (md_order back_url : Val) (oc : Outcome) :
    Except PyErr Dct :=
  execute cfg "payment/samsungWeb/payment.do"
    [("mdOrder", md_order), ("onFailedPaymentBackUrl", back_url)] oc

example :
    handle_errors [("errorCode", .vstr "5"), ("errorMessage", .vstr "Order not found")]
      = .error (.actionE (.vstr "Order not found") (.vint 5)) := rfl
example : handle_errors [("errorCode", .vint 0)] = .ok () := rfl
example : handle_errors [] = .ok () := rfl
example :
    handle_errors [("errorCode", .vstr "0"), ("error", .vint 5)] = .error .attributeError := rfl
example :
    handle_errors [("ErrorMessage", .vstr "oops")]
      = .error (.actionE (.vstr "oops") (.vstr "oops")) := rfl
example :
    handle_errors [("error", .vdict [("code", .vint 3), ("description", .vstr "bad")])]
      = .error (.actionE (.vstr "bad") (.vint 3)) := rfl

/-
Python dict equality (`==`) on the modelled values: dicts compare as key
sets with equal values (with unique keys: equal lengths plus
left-inclusion); Python booleans equal their integer values.
-/

mutual

/-- Python `==` on modelled values. -/
def pyValEq : Val → Val → Bool
  | .vstr a, .vstr b => a == b
  | .vint a, .vint b => a == b
  | .vbool a, .vbool b => a == b
  | .vbool a, .vint b => (if a then (1 : Int) else 0) == b
  | .vint a, .vbool b => a == (if b then (1 : Int) else 0)
  | .vnone, .vnone => true
  | .vdict a, .vdict b => a.length == b.length && pyDictLe a b
  | _, _ => false

/-- Every entry of the first dict appears in the second with an equal
value. -/
def pyDictLe : Dct → Dct → Bool
  | [], _ => true
  | (k, v) :: r, d =>
      (match dFind d k with
       | some w => pyValEq v w
       | none => false) && pyDictLe r d

end

/-
The character classes of the claims: keys made of (ASCII) lowercase
letters, digits, and the underscore separator.
-/

/-- The lowercase letters. -/
def lowerChars : List Char :=
  ['a', 'b', 'c', 'd', 'e', 'f', 'g', 'h', 'i', 'j', 'k', 'l', 'm',
   'n', 'o', 'p', 'q', 'r', 's', 't', 'u', 'v', 'w', 'x', 'y', 'z']

/-- The digits. -/
def digitChars : List Char := ['0', '1', '2', '3', '4', '5', '6', '7', '8', '9']

/-- Membership in `lowerChars`. -/
def isLowC (c : Char) : Bool := lowerChars.contains c

/-- Membership in `digitChars`. -/
def isDigC (c : Char) : Bool := digitChars.contains c

/-- A letter or a digit. -/
def charOkB (c : Char) : Bool := isLowC c || isDigC c

/-- Splitting a key at every underscore (inverse of `joinU`). -/
def splitU : List Char → List (List Char)
  | [] => [[]]
  | c :: cs =>
      if c = '_' then [] :: splitU cs
      else
        match splitU cs with
        | [] => [[c]]
        | w :: ws => (c :: w) :: ws

/-- Joining words with single underscores. -/
def joinU : List (List Char) → List Char
  | [] => []
  | w :: ws =>
      match ws with
      | [] => w
      | _ :: _ => w ++ '_' :: joinU ws

/-- The claim's hypothesis on a single key, as written: lowercase words of
letters and digits joined by the underscore separator (every chunk between
underscores nonempty and made of letters and digits). -/
def claimKeyOkL (k : List Char) : Bool :=
  (splitU k).all (fun w => !w.isEmpty && w.all charOkB)

/-- `claimKeyOkL` on a string key. -/
def keyStrOk (k : String) : Bool := claimKeyOkL k.data

mutual

/-- The claim's hypothesis on values: nested dicts satisfy it recursively. -/
def claimValOk : Val → Bool
  | .vdict d => claimDictOk d
  | _ => true

/-- The claim's hypothesis on a mapping: every key is a caller-convention
key, no two distinct keys collide to the same gateway-convention key, and
nested dict values satisfy the same hypothesis. -/
def claimDictOk : Dct → Bool
  | [] => true
  | (k, v) :: r =>
      keyStrOk k && claimValOk v &&
      r.all (fun kv => k == kv.1 || !(snakeKeyS k == snakeKeyS kv.1)) && claimDictOk r

end

/-- All characters are digits. -/
def allDigC (l : List Char) : Bool := l.all isDigC

/-- Lowercase letters followed by digits (either block possibly empty). -/
def lowThenDig : List Char → Bool
  | [] => true
  | c :: cs => if isLowC c then lowThenDig cs else allDigC (c :: cs)

/-- A nonempty word of lowercase letters followed by digits. -/
def wordOkB (w : List Char) : Bool := !w.isEmpty && lowThenDig w

/-- A word that starts with a lowercase letter, then letters before
digits. -/
def laterWordOkB : List Char → Bool
  | [] => false
  | c :: cs => isLowC c && lowThenDig cs

/-- The amended hypothesis on a single key: a key without underscores is a
nonempty run of letters and digits; a key with underscores splits into
words where every word puts all its letters before its digits and every
word after the first starts with a letter. -/
def amendedKeyOkL (k : List Char) : Bool :=
  if k.contains '_' then
    match splitU k with
    | [] => false
    | w :: ws => wordOkB w && ws.all laterWordOkB
  else !k.isEmpty && k.all charOkB

/-- `amendedKeyOkL` on a string key. -/
def amendedKeyOkS (k : String) : Bool := amendedKeyOkL k.data

mutual

/-- The amended hypothesis on values. -/
def amendedValOk : Val → Bool
  | .vdict d => amendedDictOk d
  | _ => true

/-- The amended hypothesis on a mapping: every key satisfies
`amendedKeyOkS`, no two distinct keys collide, nested dicts recursively. -/
def amendedDictOk : Dct → Bool
  | [] => true
  | (k, v) :: r =>
      amendedKeyOkS k && amendedValOk v &&
      r.all (fun kv => k == kv.1 || !(snakeKeyS k == snakeKeyS kv.1)) && amendedDictOk r

end

/-
Spec-side definitions for the error-field claims: the documented priority
for the code and the message, written from the specification's sentences
("Error field priority for code: errorCode → ErrorMessage → error.code.
Priority for message: errorMessage → ErrorMessage → error.message →
error.description, defaulting to a generic unknown-error message"; a
field matches when it carries a truthy value, and a digit-string code is
coerced to an integer).
-/

/-- The error code the documented field priority resolves, after the
string-to-integer coercion; the sentinel 0 when no field matches. -/
def resolvedErrorCode (r : Dct) : Except PyErr Val := do
  let v ←
    if truthy (dGet r "errorCode") then pure (dGet r "errorCode")
    else if truthy (dGet r "ErrorMessage") then pure (dGet r "ErrorMessage")
    else errField r "code"
  pure (coerceCode (if truthy v then v else Val.vint 0))

/-- The error message the documented field priority resolves, defaulting
to the generic unknown-error message. -/
def resolvedErrorMessage (r : Dct) : Except PyErr Val := do
  if truthy (dGet r "errorMessage") then pure (dGet r "errorMessage")
  else if truthy (dGet r "ErrorMessage") then pure (dGet r "ErrorMessage")
  else do
    let m ← errField r "message"
    if truthy m then pure m
    else do
      let ds ← errField r "description"
      pure (if truthy ds then ds else Val.vstr "Неизвестная ошибка")

/-- The value under `error`, when the key is present, is a dict (so that
the chained `.get` calls cannot raise AttributeError). -/
def errorFieldIsDict (r : Dct) : Bool := isDict (dGetD r "error" (.vdict []))

example : resolvedErrorCode [("errorCode", .vstr "0"), ("error", .vint 5)] = .ok (.vint 0) := rfl
example : resolvedErrorCode [("errorCode", .vint 0)] = .ok (.vint 0) := rfl
example : resolvedErrorCode [] = .ok (.vint 0) := rfl
example : pyValEq (.vdict [("a", .vint 1)]) (.vdict [("a", .vint 1)]) = true := rfl
example : pyValEq (.vdict [("a", .vint 1)]) (.vdict [("b", .vint 1)]) = false := rfl

/-
Facts about the ASCII character classes, established by evaluation over
the two explicit character lists.
-/

theorem lowFacts : ∀ c ∈ lowerChars,
    c.isAlpha = true ∧ c.isUpper = false ∧ c.isAlphanum = true ∧ c.toLower = c ∧
    c.toUpper.isUpper = true ∧ c.toUpper.isAlpha = true ∧ c.toUpper.isAlphanum = true ∧
    c.toUpper.toLower = c ∧ (c == '_') = false ∧ (c.toUpper == '_') = false := by decide

theorem digFacts : ∀ c ∈ digitChars,
    c.isAlpha = false ∧ c.isUpper = false ∧ c.isAlphanum = true ∧ c.toLower = c ∧
    c.toUpper = c ∧ (c == '_') = false := by decide

theorem mem_of_isLowC {c : Char} (h : isLowC c = true) : c ∈ lowerChars := by
  rw [isLowC] at h; exact List.elem_iff.mp h

theorem mem_of_isDigC {c : Char} (h : isDigC c = true) : c ∈ digitChars := by
  rw [isDigC] at h; exact List.elem_iff.mp h

theorem charOk_not_upper {c : Char} (h : charOkB c = true) : c.isUpper = false := by
  rcases Bool.or_eq_true_iff.mp (by simpa [charOkB] using h) with hl | hd
  · exact (lowFacts c (mem_of_isLowC hl)).2.1
  · exact (digFacts c (mem_of_isDigC hd)).2.1

theorem charOk_alnum {c : Char} (h : charOkB c = true) : c.isAlphanum = true := by
  rcases Bool.or_eq_true_iff.mp (by simpa [charOkB] using h) with hl | hd
  · exact (lowFacts c (mem_of_isLowC hl)).2.2.1
  · exact (digFacts c (mem_of_isDigC hd)).2.2.1

theorem charOk_ne_underscore {c : Char} (h : charOkB c = true) : (c == '_') = false := by
  rcases Bool.or_eq_true_iff.mp (by simpa [charOkB] using h) with hl | hd
  · exact (lowFacts c (mem_of_isLowC hl)).2.2.2.2.2.2.2.2.1
  · exact (digFacts c (mem_of_isDigC hd)).2.2.2.2.2

theorem charOk_toLower {c : Char} (h : charOkB c = true) : c.toLower = c := by
  rcases Bool.or_eq_true_iff.mp (by simpa [charOkB] using h) with hl | hd
  · exact (lowFacts c (mem_of_isLowC hl)).2.2.2.1
  · exact (digFacts c (mem_of_isDigC hd)).2.2.2.1

/-
Lemmas about splitting and joining keys at underscores.
-/

theorem splitU_ne_nil : ∀ l : List Char, splitU l ≠ [] := by
  intro l
  cases l with
  | nil => simp [splitU]
  | cons c cs =>
      by_cases hc : c = '_'
      · simp [splitU, hc]
      · simp only [splitU, if_neg hc]
        cases splitU cs <;> simp

theorem joinU_splitU : ∀ l : List Char, joinU (splitU l) = l := by
  intro l
  induction l with
  | nil => rfl
  | cons c cs ih =>
      by_cases hc : c = '_'
      · subst hc
        simp only [splitU, if_pos rfl]
        obtain ⟨w, ws, hw⟩ : ∃ w ws, splitU cs = w :: ws := by
          cases h : splitU cs with
          | nil => exact absurd h (splitU_ne_nil cs)
          | cons w ws => exact ⟨w, ws, rfl⟩
        rw [hw] at ih ⊢
        simpa [joinU] using ih
      · simp only [splitU, if_neg hc]
        obtain ⟨w, ws, hw⟩ : ∃ w ws, splitU cs = w :: ws := by
          cases h : splitU cs with
          | nil => exact absurd h (splitU_ne_nil cs)
          | cons w ws => exact ⟨w, ws, rfl⟩
        rw [hw] at ih ⊢
        cases ws with
        | nil => simpa [joinU] using congrArg (c :: ·) ih
        | cons w2 ws2 => simpa [joinU] using congrArg (c :: ·) ih

/-
Behaviour of the source's `title`, `filter isalnum` and comprehension
steps on the amended class of keys.
-/

/-- Uppercase the first character of a word (what `title()` does to a word
that starts with a letter; a digit-started word is unchanged). -/
def capFirst : List Char → List Char
  | [] => []
  | c :: cs => c.toUpper :: cs

theorem allDigC_chars {l : List Char} (h : allDigC l = true) : ∀ c ∈ l, isDigC c = true := by
  simpa [allDigC, List.all_eq_true] using h

theorem lowThenDig_chars {l : List Char} (h : lowThenDig l = true) :
    ∀ c ∈ l, charOkB c = true := by
  induction l with
  | nil => simp
  | cons c cs ih =>
      intro x hx
      by_cases hc : isLowC c = true
      · rw [lowThenDig, if_pos hc] at h
        rcases List.mem_cons.mp hx with rfl | hxs
        · simp [charOkB, hc]
        · exact ih h x hxs
      · rw [lowThenDig, if_neg hc] at h
        have := allDigC_chars h x hx
        simp [charOkB, this]

theorem titleAux_digits {l : List Char} (h : allDigC l = true) : ∀ b, titleAux b l = l := by
  induction l with
  | nil => intro b; rfl
  | cons c cs ih =>
      intro b
      rw [allDigC, List.all_cons, Bool.and_eq_true] at h
      have hα : c.isAlpha = false := (digFacts c (mem_of_isDigC h.1)).1
      simp [titleAux, hα, ih h.2]

theorem titleAux_lowdig {l : List Char} (h : lowThenDig l = true) : titleAux true l = l := by
  induction l with
  | nil => rfl
  | cons c cs ih =>
      by_cases hc : isLowC c = true
      · rw [lowThenDig, if_pos hc] at h
        have hf := lowFacts c (mem_of_isLowC hc)
        simp [titleAux, hf.1, hf.2.2.2.1, ih h]
      · rw [lowThenDig, if_neg hc] at h
        exact titleAux_digits h true

theorem titleAux_word {w : List Char} (h : wordOkB w = true) : titleAux false w = capFirst w := by
  rw [wordOkB, Bool.and_eq_true] at h
  obtain ⟨hne, hld⟩ := h
  cases w with
  | nil => simp at hne
  | cons c cs =>
      by_cases hc : isLowC c = true
      · rw [lowThenDig, if_pos hc] at hld
        have hf := lowFacts c (mem_of_isLowC hc)
        simp [titleAux, capFirst, hf.1, titleAux_lowdig hld]
      · rw [lowThenDig, if_neg hc] at hld
        have hdc : isDigC c = true := by
          have := allDigC_chars hld c (by simp)
          exact this
        have hf := digFacts c (mem_of_isDigC hdc)
        rw [titleAux_digits hld false]
        simp [capFirst, hf.2.2.2.2.1]

theorem laterWord_word {w : List Char} (h : laterWordOkB w = true) : wordOkB w = true := by
  cases w with
  | nil => simp [laterWordOkB] at h
  | cons c cs =>
      rw [laterWordOkB, Bool.and_eq_true] at h
      simp [wordOkB, lowThenDig, h.1, h.2]

theorem titleAux_joinU {ws : List (List Char)} (h : ws.all wordOkB = true) :
    titleAux false (joinU ws) = joinU (ws.map capFirst) := by
  induction ws with
  | nil => rfl
  | cons w ws ih =>
      rw [List.all_cons, Bool.and_eq_true] at h
      cases ws with
      | nil => simpa [joinU] using titleAux_word h.1
      | cons w2 ws2 =>
          have hjoin : joinU (w :: w2 :: ws2) = w ++ '_' :: joinU (w2 :: ws2) := rfl
          have happ : ∀ b (xs ys : List Char),
              titleAux b (xs ++ ys) = titleAux b xs ++
                titleAux (xs.foldl (fun _ c => c.isAlpha) b) ys := by
            intro b xs
            induction xs generalizing b with
            | nil => intro ys; rfl
            | cons x xs ihx => intro ys; simp [titleAux, ihx]
          rw [hjoin, happ]
          have hu : ∀ b t, titleAux b ('_' :: t) = '_' :: titleAux false t := by
            intro b t
            have : ('_' : Char).isAlpha = false := by decide
            simp [titleAux, this]
          rw [hu, titleAux_word h.1, ih h.2]
          rfl

theorem capFirst_alnum {w : List Char} (h : wordOkB w = true) :
    ∀ c ∈ capFirst w, c.isAlphanum = true := by
  rw [wordOkB, Bool.and_eq_true] at h
  obtain ⟨hne, hld⟩ := h
  cases w with
  | nil => simp [capFirst]
  | cons c cs =>
      intro x hx
      rcases List.mem_cons.mp hx with rfl | hxs
      · have hcok : charOkB c = true := lowThenDig_chars hld c (by simp)
        rcases Bool.or_eq_true_iff.mp (by simpa [charOkB] using hcok) with hl | hd
        · exact (lowFacts c (mem_of_isLowC hl)).2.2.2.2.2.2.1
        · have hf := digFacts c (mem_of_isDigC hd)
          rw [hf.2.2.2.2.1]
          exact hf.2.2.1
      · exact charOk_alnum (lowThenDig_chars hld x (List.mem_cons_of_mem c hxs))

theorem filter_joinU {ws : List (List Char)} (h : ws.all wordOkB = true) :
    (joinU (ws.map capFirst)).filter Char.isAlphanum = (ws.map capFirst).flatten := by
  induction ws with
  | nil => rfl
  | cons w ws ih =>
      rw [List.all_cons, Bool.and_eq_true] at h
      cases ws with
      | nil =>
          simp only [List.map_cons, List.map_nil, joinU, List.flatten_cons, List.flatten_nil,
            List.append_nil]
          exact List.filter_eq_self.mpr (capFirst_alnum h.1)
      | cons w2 ws2 =>
          have hjoin : joinU (capFirst w :: (w2 :: ws2).map capFirst)
              = capFirst w ++ '_' :: joinU ((w2 :: ws2).map capFirst) := rfl
          have hund : ('_' : Char).isAlphanum = false := by decide
          rw [List.map_cons, hjoin, List.filter_append]
          simp [List.filter_cons, hund, List.filter_eq_self.mpr (capFirst_alnum h.1)]
          simpa using ih h.2

theorem camelCore_append (xs ys : List Char) :
    camelCore (xs ++ ys) = camelCore xs ++ camelCore ys := by
  simp [camelCore]

theorem camelCore_plain {l : List Char} (h : ∀ c ∈ l, charOkB c = true) : camelCore l = l := by
  induction l with
  | nil => rfl
  | cons c cs ih =>
      have hu : c.isUpper = false := charOk_not_upper (h c (by simp))
      have ihr := ih (fun x hx => h x (List.mem_cons_of_mem c hx))
      simp [camelCore, hu] at ihr ⊢
      exact ihr

theorem camelCore_capFirst {w : List Char} (h : laterWordOkB w = true) :
    camelCore (capFirst w) = '_' :: w := by
  cases w with
  | nil => simp [laterWordOkB] at h
  | cons c cs =>
      rw [laterWordOkB, Bool.and_eq_true] at h
      have hf := lowFacts c (mem_of_isLowC h.1)
      have hcs : camelCore cs = cs :=
        camelCore_plain (fun x hx => lowThenDig_chars h.2 x hx)
      simp [capFirst, camelCore, hf.2.2.2.2.1, hf.2.2.2.2.2.2.2.1] at hcs ⊢
      exact hcs

theorem camelCore_flattenCaps {ws : List (List Char)} (h : ws.all laterWordOkB = true) :
    camelCore ((ws.map capFirst).flatten) = (ws.map fun w => '_' :: w).flatten := by
  induction ws with
  | nil => rfl
  | cons w ws ih =>
      rw [List.all_cons, Bool.and_eq_true] at h
      rw [List.map_cons, List.flatten_cons, camelCore_append, camelCore_capFirst h.1,
        List.map_cons, List.flatten_cons, ih h.2]

theorem joinU_eq_append : ∀ (ws : List (List Char)) (w : List Char),
    w ++ ((ws.map fun x => '_' :: x).flatten) = joinU (w :: ws) := by
  intro ws
  induction ws with
  | nil => intro w; simp [joinU]
  | cons w2 ws2 ih =>
      intro w
      have : joinU (w :: w2 :: ws2) = w ++ '_' :: joinU (w2 :: ws2) := rfl
      rw [this, ← ih w2]
      simp

theorem contains_eq_mem {l : List Char} {c : Char} : l.contains c = true ↔ c ∈ l :=
  List.elem_iff

theorem key_roundtripL {k : List Char} (h : amendedKeyOkL k = true) :
    camelKeyL (snakeKeyL k) = k := by
  rw [amendedKeyOkL] at h
  cases hc : k.contains '_' with
  | false =>
      rw [hc] at h
      simp only [Bool.false_eq_true, if_false, Bool.and_eq_true, Bool.not_eq_true',
        List.all_eq_true] at h
      obtain ⟨hne, hall⟩ := h
      have hall2 : ∀ c ∈ k, charOkB c = true := fun c hx => by
        have := hall c hx
        simpa using this
      rw [snakeKeyL, hc]
      simp only [Bool.false_eq_true, if_false]
      rw [camelKeyL, camelCore_plain hall2]
      cases k with
      | nil => simp [List.isEmpty] at hne
      | cons c cs =>
          rw [List.dropWhile_cons]
          simp [charOk_ne_underscore (hall2 c (by simp))]
  | true =>
      rw [hc] at h
      simp only [if_true] at h
      obtain ⟨w, ws, hsp⟩ : ∃ w ws, splitU k = w :: ws := by
        cases hs : splitU k with
        | nil => exact absurd hs (splitU_ne_nil k)
        | cons w ws => exact ⟨w, ws, rfl⟩
      rw [hsp] at h
      rw [Bool.and_eq_true] at h
      obtain ⟨hw, hws⟩ := h
      have hk : joinU (w :: ws) = k := by rw [← hsp]; exact joinU_splitU k
      have hmem : '_' ∈ k := contains_eq_mem.mp hc
      cases ws with
      | nil =>
          exfalso
          have hkw : k = w := by rw [← hk]; rfl
          subst hkw
          rw [wordOkB, Bool.and_eq_true] at hw
          have := charOk_ne_underscore (lowThenDig_chars hw.2 '_' hmem)
          simp at this
      | cons w2 ws2 =>
          have hallw : (w :: w2 :: ws2).all wordOkB = true := by
            rw [List.all_cons, Bool.and_eq_true]
            refine ⟨hw, ?_⟩
            rw [List.all_eq_true] at hws ⊢
            exact fun x hx => laterWord_word (hws x hx)
          obtain ⟨c0, t0, hw0⟩ : ∃ c t, w = c :: t := by
            cases w with
            | nil => simp [wordOkB] at hw
            | cons c t => exact ⟨c, t, rfl⟩
          have hc0 : charOkB c0 = true := by
            rw [wordOkB, Bool.and_eq_true, hw0] at hw
            exact lowThenDig_chars hw.2 c0 (by simp)
          have hlowup : c0.toUpper.toLower = c0 := by
            rcases Bool.or_eq_true_iff.mp (by simpa [charOkB] using hc0) with hl | hd
            · exact (lowFacts c0 (mem_of_isLowC hl)).2.2.2.2.2.2.2.1
            · have hf := digFacts c0 (mem_of_isDigC hd)
              rw [hf.2.2.2.2.1]
              exact hf.2.2.2.1
          have hsnake : snakeKeyL k = w ++ ((w2 :: ws2).map capFirst).flatten := by
            rw [snakeKeyL, hc, if_pos rfl]
            rw [← hk, titleAux_joinU hallw, filter_joinU hallw]
            rw [List.map_cons, List.flatten_cons, hw0]
            simp only [capFirst, List.cons_append, lowerFirst, hlowup]
          have hplain : camelCore w = w := by
            rw [wordOkB, Bool.and_eq_true] at hw
            exact camelCore_plain (fun x hx => lowThenDig_chars hw.2 x hx)
          have hdrop : (joinU (w :: w2 :: ws2)).dropWhile (fun c => c == '_')
              = joinU (w :: w2 :: ws2) := by
            have hje : joinU (w :: w2 :: ws2) = c0 :: (t0 ++ '_' :: joinU (w2 :: ws2)) := by
              rw [show joinU (w :: w2 :: ws2) = w ++ '_' :: joinU (w2 :: ws2) from rfl, hw0]
              rfl
            rw [hje, List.dropWhile_cons]
            simp [charOk_ne_underscore hc0]
          rw [hsnake, camelKeyL, camelCore_append, camelCore_flattenCaps hws, hplain,
            joinU_eq_append, hdrop]
          exact hk

theorem key_roundtripS : ∀ k : String, amendedKeyOkS k = true → camelKeyS (snakeKeyS k) = k := by
  intro k h
  cases k with
  | mk l =>
      show String.mk (camelKeyL (snakeKeyL l)) = ⟨l⟩
      exact congrArg String.mk (key_roundtripL h)

mutual

theorem roundValArg : ∀ v : Val, amendedValOk v = true → camelValArg (snakeValArg v) = v
  | .vstr _, _ => rfl
  | .vint _, _ => rfl
  | .vbool _, _ => rfl
  | .vnone, _ => rfl
  | .vdict d, h => congrArg Val.vdict (roundDict d (by simpa [amendedValOk] using h))

theorem roundDict : ∀ d : Dct, amendedDictOk d = true → camel_to_snake (snake_to_camel d) = d
  | [], _ => rfl
  | (k, v) :: r, h => by
      rw [amendedDictOk] at h
      simp only [Bool.and_eq_true] at h
      show (camelKeyS (snakeKeyS k), camelValArg (snakeValArg v))
          :: camel_to_snake (snake_to_camel r) = (k, v) :: r
      rw [key_roundtripS k h.1.1.1, roundValArg v h.1.1.2, roundDict r h.2]

end

/-
Claim C1.
-/

/-- C1 counterexample: the mapping `{"phase_1": "a", "ab1c_d": "b"}` has
caller-convention (lower_snake_case) keys over letters, digits and the
underscore separator with no gateway-case collision, yet translating it to
gateway case and back does not return it: Python `str.title()` treats a
digit as a word boundary, so `phase_1` maps to `phase1` (the separator is
lost) and `ab1c_d` maps to `ab1CD`, which maps back to `ab1_c_d`. -/
theorem C1_counterexample :
    claimDictOk [("phase_1", Val.vstr "a"), ("ab1c_d", Val.vstr "b")] = true ∧
    pyValEq
      (.vdict (camel_to_snake (snake_to_camel
        [("phase_1", Val.vstr "a"), ("ab1c_d", Val.vstr "b")])))
      (.vdict [("phase_1", Val.vstr "a"), ("ab1c_d", Val.vstr "b")]) = false ∧
    camel_to_snake (snake_to_camel [("phase_1", Val.vstr "a"), ("ab1c_d", Val.vstr "b")])
      = [("phase1", Val.vstr "a"), ("ab1_c_d", Val.vstr "b")] :=
  ⟨rfl, rfl, rfl⟩

/-- C1 (amended): for every mapping whose keys are lower_snake_case over
letters, digits and the underscore separator, where within each word every
letter comes before every digit, every word after the first starts with a
letter, and no two distinct keys collide to the same gateway-convention
key, translating to gateway case and back returns the mapping, including
recursively for nested mapping values. -/
theorem C1_roundtrip (m : Dct) (h : amendedDictOk m = true) :
    camel_to_snake (snake_to_camel m) = m :=
  roundDict m h

/-- C1 witness: the amended round trip evaluated on a concrete nested
mapping. -/
theorem C1_roundtrip_witness :
    amendedDictOk [("order_number", Val.vstr "1"),
        ("nested_info", Val.vdict [("client_id", Val.vstr "x")])] = true ∧
    camel_to_snake (snake_to_camel [("order_number", Val.vstr "1"),
        ("nested_info", Val.vdict [("client_id", Val.vstr "x")])])
      = [("order_number", Val.vstr "1"),
         ("nested_info", Val.vdict [("client_id", Val.vstr "x")])] :=
  ⟨by decide, C1_roundtrip _ (by decide)⟩

/-
Claim C6.
-/

/-- C6: constructing a client with both a (truthy) token and a (truthy)
username/password pair fails with the configuration error, constructing
with neither authentication mode fails with the configuration error, and
a successfully constructed client holds exactly one authentication mode:
user/password exactly when both were supplied, token otherwise (the token
then being truthy). -/
theorem C6_auth_modes :
    (∀ api u p t l c hm pd pa pg ps, truthy u = true → truthy p = true → truthy t = true →
        init api u p t l c hm pd pa pg ps = .error .configError) ∧
    (∀ api u p t l c hm pd pa pg ps, (truthy u && truthy p) = false → truthy t = false →
        init api u p t l c hm pd pa pg ps = .error .configError) ∧
    (∀ api u p t l c hm pd pa pg ps cfg, init api u p t l c hm pd pa pg ps = .ok cfg →
        (((truthy u && truthy p) = true → cfg.auth = .userPass u p ∧ truthy t = false) ∧
         ((truthy u && truthy p) = false → cfg.auth = .token t ∧ truthy t = true) ∧
         ((∃ tv, cfg.auth = .token tv) ↔ ¬ ∃ uv pv, cfg.auth = .userPass uv pv))) := by
  refine ⟨?_, ?_, ?_⟩
  · intro api u p t l c hm pd pa pg ps hu hp ht
    have hA : authOf u p t = .error .configError := by simp [authOf, hu, hp, ht]
    rw [init, hA]
    rfl
  · intro api u p t l c hm pd pa pg ps hup ht
    have hA : authOf u p t = .error .configError := by simp [authOf, hup, ht]
    rw [init, hA]
    rfl
  · intro api u p t l c hm pd pa pg ps cfg h
    cases hA : authOf u p t with
    | error e => rw [init, hA] at h; exact absurd h (by simp [Bind.bind, Except.bind])
    | ok a =>
        cases hM : methodOf hm with
        | error e => rw [init, hA, hM] at h; exact absurd h (by simp [Bind.bind, Except.bind])
        | ok m =>
            rw [init, hA, hM] at h
            simp only [Bind.bind, Except.bind, pure, Except.pure, Except.ok.injEq] at h
            subst h
            by_cases hup : (truthy u && truthy p) = true
            · by_cases ht : truthy t = true
              · simp [authOf, hup, ht] at hA
              · rw [authOf, if_pos hup, if_neg ht] at hA
                simp only [pure, Except.pure, Except.ok.injEq] at hA
                subst hA
                exact ⟨fun _ => ⟨rfl, by simpa using ht⟩,
                       fun hc => absurd hup (by simp [hc]), by simp⟩
            · by_cases ht : truthy t = true
              · rw [authOf, if_neg hup, if_pos ht] at hA
                simp only [pure, Except.pure, Except.ok.injEq] at hA
                subst hA
                exact ⟨fun hc => absurd hc hup, fun _ => ⟨rfl, ht⟩, by simp⟩
              · simp [authOf, hup, ht] at hA

/-- A sample token-authenticated configuration (GET verb, default
prefixes). -/
def cfgTok : Config :=
  ⟨"https://bank", .token (.vstr "tok"), .vnone, .vnone, "/payment/rest/",
   "/payment/applepay/", "/payment/google/", "/payment/samsung/", some "GET"⟩

/-- A sample username/password configuration (POST verb, default
prefixes). -/
def cfgUP : Config :=
  ⟨"https://bank", .userPass (.vstr "u") (.vstr "p"), .vnone, .vnone, "/payment/rest/",
   "/payment/applepay/", "/payment/google/", "/payment/samsung/", some "POST"⟩

/-- A configuration constructed without an `http_method` keyword. -/
def cfgNoVerb : Config :=
  ⟨"https://bank", .token (.vstr "tok"), .vnone, .vnone, "/payment/rest/",
   "/payment/applepay/", "/payment/google/", "/payment/samsung/", none⟩

/-- C6 witness: the configuration-error cases and the single-mode
conclusion evaluated at concrete constructor arguments. -/
theorem C6_auth_modes_witness :
    init "https://bank" (.vstr "u") (.vstr "p") (.vstr "tok") .vnone .vnone .vnone
        none none none none = .error .configError ∧
    init "https://bank" .vnone .vnone .vnone .vnone .vnone .vnone
        none none none none = .error .configError ∧
    cfgNoVerb.auth = .token (.vstr "tok") :=
  ⟨C6_auth_modes.1 "https://bank" (.vstr "u") (.vstr "p") (.vstr "tok") .vnone .vnone .vnone
      none none none none (by decide) (by decide) (by decide),
   C6_auth_modes.2.1 "https://bank" .vnone .vnone .vnone .vnone .vnone .vnone
      none none none none (by decide) (by decide),
   (((C6_auth_modes.2.2 "https://bank" .vnone .vnone (.vstr "tok") .vnone .vnone .vnone
      none none none none cfgNoVerb rfl).2.1) (by decide)).1⟩

/-
Dictionary update/lookup lemmas.
-/

theorem dFind_dSet_self (d : Dct) (k : String) (v : Val) : dFind (dSet d k v) k = some v := by
  induction d with
  | nil => simp [dSet, dFind]
  | cons kv r ih =>
      obtain ⟨k2, w⟩ := kv
      by_cases hk : k2 = k
      · simp [dSet, dFind, hk]
      · simp [dSet, dFind, hk, ih]

theorem dFind_dSet_ne (d : Dct) (k k2 : String) (v : Val) (h : k2 ≠ k) :
    dFind (dSet d k v) k2 = dFind d k2 := by
  have hne : k ≠ k2 := fun hx => h hx.symm
  induction d with
  | nil => simp [dSet, dFind, hne]
  | cons kv r ih =>
      obtain ⟨k3, w⟩ := kv
      by_cases hk : k3 = k
      · subst hk
        simp [dSet, dFind, hne]
      · simp [dSet, dFind, hk, ih]

theorem dGet_dSet_self (d : Dct) (k : String) (v : Val) : dGet (dSet d k v) k = v := by
  rw [dGet, dFind_dSet_self]
  rfl

theorem dGet_dSet_ne (d : Dct) (k k2 : String) (v : Val) (h : k2 ≠ k) :
    dGet (dSet d k v) k2 = dGet d k2 := by
  rw [dGet, dGet, dFind_dSet_ne d k k2 v h]

theorem dGet_regKw_jsonParams (cfg : Config) (o a r : Val) (kw : Dct) :
    dGet (regKw cfg o a r kw) "jsonParams" = dGet kw "jsonParams" := by
  rw [regKw]
  split
  · rw [dGet_dSet_ne _ _ _ _ (by decide), dGet_dSet_ne _ _ _ _ (by decide),
      dGet_dSet_ne _ _ _ _ (by decide), dGet_dSet_ne _ _ _ _ (by decide)]
  · rw [dGet_dSet_ne _ _ _ _ (by decide), dGet_dSet_ne _ _ _ _ (by decide),
      dGet_dSet_ne _ _ _ _ (by decide)]

/-
Claim C10.
-/

/-- C10: in `do_register_order` (and its wrappers `register_order` and
`register_order_preauth`), a truthy dict `jsonParams` raises TypeError
before `execute` is reached — for every transport outcome — while a
truthy non-dict `jsonParams` passes the inverted isinstance check and the
call proceeds to `execute`. -/
theorem C10_jsonParams_inverted :
    (∀ cfg onum amt rurl mth kw oc, truthy (dGet kw "jsonParams") = true →
        isDict (dGet kw "jsonParams") = true →
        do_register_order cfg onum amt rurl mth kw oc
          = .error (.typeError "\"jsonParams\" должен быть типа dict")) ∧
    (∀ cfg onum amt rurl mth kw oc, truthy (dGet kw "jsonParams") = true →
        isDict (dGet kw "jsonParams") = false →
        do_register_order cfg onum amt rurl mth kw oc
          = execute cfg mth (regKw cfg onum amt rurl kw) oc) ∧
    (∀ cfg onum amt rurl kw oc, register_order cfg onum amt rurl kw oc
        = do_register_order cfg onum amt rurl (cfg.prefix_default ++ "register.do") kw oc) ∧
    (∀ cfg onum amt rurl kw oc, register_order_preauth cfg onum amt rurl kw oc
        = do_register_order cfg onum amt rurl
            (cfg.prefix_default ++ "registerPreAuth.do") kw oc) := by
  refine ⟨?_, ?_, fun _ _ _ _ _ _ => rfl, fun _ _ _ _ _ _ => rfl⟩
  · intro cfg onum amt rurl mth kw oc h1 h2
    rw [do_register_order]
    rw [dGet_regKw_jsonParams, h1, h2]
    simp
  · intro cfg onum amt rurl mth kw oc h1 h2
    rw [do_register_order]
    rw [dGet_regKw_jsonParams, h1, h2]
    simp

/-- C10 witness: concrete calls with a dict-valued and a string-valued
`jsonParams`. -/
theorem C10_jsonParams_inverted_witness :
    do_register_order cfgTok (.vstr "1") (.vint 100) (.vstr "https://back")
        "/payment/rest/register.do" [("jsonParams", .vdict [("a", .vstr "b")])]
        (.resp 200 []) = .error (.typeError "\"jsonParams\" должен быть типа dict") ∧
    do_register_order cfgTok (.vstr "1") (.vint 100) (.vstr "https://back")
        "/payment/rest/register.do" [("jsonParams", .vstr "oops")] (.resp 200 [])
      = execute cfgTok "/payment/rest/register.do"
          (regKw cfgTok (.vstr "1") (.vint 100) (.vstr "https://back")
            [("jsonParams", .vstr "oops")]) (.resp 200 []) :=
  ⟨C10_jsonParams_inverted.1 cfgTok (.vstr "1") (.vint 100) (.vstr "https://back")
      "/payment/rest/register.do" [("jsonParams", .vdict [("a", .vstr "b")])]
      (.resp 200 []) (by decide) (by decide),
   C10_jsonParams_inverted.2.1 cfgTok (.vstr "1") (.vint 100) (.vstr "https://back")
      "/payment/rest/register.do" [("jsonParams", .vstr "oops")] (.resp 200 [])
      (by decide) (by decide)⟩

/-
The fallible kwargs translation against its successful-case value.
-/

theorem snakeKeyE_ok {k k2 : String} (h : snakeKeyE k = .ok k2) : k2 = snakeKeyS k := by
  rw [snakeKeyE] at h
  by_cases hc : k.data.contains '_' = true
  · rw [hc] at h
    simp only [if_true] at h
    cases hf : (titleAux false k.data).filter Char.isAlphanum with
    | nil => rw [hf] at h; cases h
    | cons c cs =>
        rw [hf] at h
        cases h
        rw [snakeKeyS, snakeKeyL]
        simp [contains_eq_mem.mp hc, hf, lowerFirst]
  · simp only [hc, Bool.false_eq_true, if_false] at h
    cases h
    rw [snakeKeyS, snakeKeyL]
    have hnm : ¬ '_' ∈ k.data := fun hm => hc (contains_eq_mem.mpr hm)
    cases k with
    | mk l => simp [hnm]

mutual

theorem snake_to_camelE_ok : ∀ d e, snake_to_camelE d = .ok e → e = snake_to_camel d
  | [], e, h => by
      simp only [snake_to_camelE] at h
      cases h
      rfl
  | (k, v) :: r, e, h => by
      simp only [snake_to_camelE, Bind.bind, Except.bind] at h
      cases hk : snakeKeyE k with
      | error e1 => rw [hk] at h; cases h
      | ok k2 =>
          rw [hk] at h
          cases hv : snakeValArgE v with
          | error e1 => rw [hv] at h; cases h
          | ok v2 =>
              rw [hv] at h
              cases hr : snake_to_camelE r with
              | error e1 => rw [hr] at h; cases h
              | ok r2 =>
                  rw [hr] at h
                  simp only [pure, Except.pure, Except.ok.injEq] at h
                  subst h
                  rw [snake_to_camel, snakeKeyE_ok hk, snakeValArgE_ok v v2 hv,
                    snake_to_camelE_ok r r2 hr]

theorem snakeValArgE_ok : ∀ v w, snakeValArgE v = .ok w → w = snakeValArg v
  | .vstr _, w, h => by cases h; rfl
  | .vint _, w, h => by cases h; rfl
  | .vbool _, w, h => by cases h; rfl
  | .vnone, w, h => by cases h; rfl
  | .vdict d, w, h => by
      simp only [snakeValArgE, Bind.bind, Except.bind] at h
      cases hd : snake_to_camelE d with
      | error e1 => rw [hd] at h; cases h
      | ok d2 =>
          rw [hd] at h
          simp only [pure, Except.pure, Except.ok.injEq] at h
          subst h
          rw [snakeValArg, snake_to_camelE_ok d d2 hd]

end

theorem keySafe_ok {k : String} (h : keySafe k = true) : snakeKeyE k = .ok (snakeKeyS k) := by
  rw [keySafe] at h
  rw [snakeKeyE, snakeKeyS, snakeKeyL]
  by_cases hc : k.data.contains '_' = true
  · rw [hc] at h
    simp only [if_true] at h
    cases hf : (titleAux false k.data).filter Char.isAlphanum with
    | nil => rw [hf] at h; simp at h
    | cons c cs => simp [contains_eq_mem.mp hc, hf, lowerFirst]
  · have hnm : ¬ '_' ∈ k.data := fun hm => hc (contains_eq_mem.mpr hm)
    cases k with
    | mk l => simp [hnm]

mutual

theorem snake_to_camelE_of_safe : ∀ d, snakeSafeDict d = true →
    snake_to_camelE d = .ok (snake_to_camel d)
  | [], _ => rfl
  | (k, v) :: r, h => by
      rw [snakeSafeDict] at h
      simp only [Bool.and_eq_true] at h
      rw [snake_to_camelE, snake_to_camel]
      rw [keySafe_ok h.1.1, snakeValArgE_of_safe v h.1.2, snake_to_camelE_of_safe r h.2]
      rfl

theorem snakeValArgE_of_safe : ∀ v, snakeSafeVal v = true →
    snakeValArgE v = .ok (snakeValArg v)
  | .vstr _, _ => rfl
  | .vint _, _ => rfl
  | .vbool _, _ => rfl
  | .vnone, _ => rfl
  | .vdict d, h => by
      rw [snakeValArgE, snakeValArg]
      rw [snake_to_camelE_of_safe d (by simpa [snakeSafeVal] using h)]
      rfl

end

theorem buildRequest_translate_ok {cfg : Config} {action : String} {kw : Dct} {req : Request}
    (h : buildRequest cfg action kw = .ok req) :
    snake_to_camelE kw = .ok (snake_to_camel kw) := by
  cases he : snake_to_camelE kw with
  | error e =>
      rw [buildRequest, he] at h
      simp [Bind.bind, Except.bind] at h
  | ok d => exact congrArg Except.ok (snake_to_camelE_ok kw d he)


/-
Claim C9.
-/

/-- C9 counterexample: the kwargs key `_` (an underscore-only key) makes
the line-668 case translation raise IndexError at line 766's `_key[0]`
before the line-680 attribute read is reached, so a call to `execute` on
a verb-less client with such kwargs raises IndexError, not
AttributeError — exactly as a client with a configured verb does. -/
theorem C9_counterexample :
    cfgNoVerb.http_method = none ∧
    buildRequest cfgNoVerb "register.do" [("_", Val.vnone)] = .error .indexError ∧
    execute cfgNoVerb "register.do" [("_", Val.vnone)] (.resp 200 []) = .error .indexError ∧
    execute cfgTok "register.do" [("_", Val.vnone)] (.resp 200 []) = .error .indexError :=
  ⟨rfl, rfl, rfl, rfl⟩

/-- C9 (amended): a client constructed without an `http_method` keyword
never gets the attribute assigned (`none`), and every `execute` on such
a client whose action path is nonempty and whose kwargs survive the case
translation (every underscore-containing key, recursively through nested
dict values, keeps at least one alphanumeric character after
title-casing) fails with AttributeError while building the request —
before the transport is consulted, whatever it would return, classic or
wallet.  Kwargs with a key of only separators raise IndexError first,
and an empty action path raises IndexError at `action[0]`. -/
theorem C9_missing_http_method :
    (∀ api u p t l c pd pa pg ps cfg,
        init api u p t l c Val.vnone pd pa pg ps = .ok cfg → cfg.http_method = none) ∧
    (∀ cfg : Config, ∀ action kw oc, cfg.http_method = none → action.data ≠ [] →
        snakeSafeDict kw = true →
        buildRequest cfg action kw = .error .attributeError ∧
        execute cfg action kw oc = .error .attributeError) := by
  constructor
  · intro api u p t l c pd pa pg ps cfg h
    cases hA : authOf u p t with
    | error e => rw [init, hA] at h; exact absurd h (by simp [Bind.bind, Except.bind])
    | ok a =>
        have hM : methodOf Val.vnone = .ok none := rfl
        rw [init, hA, hM] at h
        simp only [Bind.bind, Except.bind, pure, Except.pure, Except.ok.injEq] at h
        subst h
        rfl
  · intro cfg action kw oc hcm hne hsafe
    obtain ⟨c, cs, hac⟩ : ∃ c cs, action.data = c :: cs := by
      cases hx : action.data with
      | nil => exact absurd hx hne
      | cons c cs => exact ⟨c, cs, rfl⟩
    have hkw := snake_to_camelE_of_safe kw hsafe
    have hbr : buildRequest cfg action kw = .error .attributeError := by
      rw [buildRequest, hkw, resolveAction, hac, hcm]
      simp [Bind.bind, Except.bind]
    refine ⟨hbr, ?_⟩
    rw [execute.eq_def, hbr]
    rfl

/-- C9 witness: a concrete verb-less client, a classic path with an
underscore-keyed kwarg that translates cleanly, and a wallet path, each
failing with AttributeError for an arbitrary transport outcome. -/
theorem C9_missing_http_method_witness :
    cfgNoVerb.http_method = none ∧
    execute cfgNoVerb "register.do" [("order_id", Val.vstr "7")] (.resp 200 [])
      = .error .attributeError ∧
    execute cfgNoVerb "/payment/applepay/payment.do" [] .connFail = .error .attributeError :=
  ⟨C9_missing_http_method.1 "https://bank" .vnone .vnone (.vstr "tok") .vnone .vnone
      none none none none cfgNoVerb rfl,
   (C9_missing_http_method.2 cfgNoVerb "register.do" [("order_id", Val.vstr "7")]
      (.resp 200 []) rfl (by decide) (by decide)).2,
   (C9_missing_http_method.2 cfgNoVerb "/payment/applepay/payment.do" [] .connFail rfl
      (by decide) (by decide)).2⟩

/-
Request-building lemmas shared by the dispatch claims.
-/

theorem beginsWith_self_append : ∀ (p t : List Char), beginsWith p (p ++ t) = true := by
  intro p
  induction p with
  | nil => intro t; rfl
  | cons c cs ih => intro t; simp [beginsWith, ih]

theorem occursIn_nil_pattern : ∀ t : List Char, occursIn [] t = true := by
  intro t
  cases t with
  | nil => rfl
  | cons c cs => simp [occursIn, beginsWith]

theorem occursIn_self_append (p t : List Char) : occursIn p (p ++ t) = true := by
  cases p with
  | nil => exact occursIn_nil_pattern t
  | cons c cs =>
      rw [List.cons_append, occursIn]
      have h := beginsWith_self_append (c :: cs) t
      rw [List.cons_append] at h
      simp [h]

/-- A path of the form `prefix_default ++ suffix` is always classified as
classic. -/
theorem isClassic_self_append (cfg : Config) (s : String) :
    isClassic cfg (cfg.prefix_default ++ s) = true := by
  rw [isClassic, String.data_append]
  exact occursIn_self_append _ _

theorem buildRequest_classic (cfg : Config) (action act : String) (kw : Dct) (m : String)
    (hm : cfg.http_method = some m)
    (hkw : snake_to_camelE kw = .ok (snake_to_camel kw))
    (hra : resolveAction cfg action = .ok act)
    (hcl : isClassic cfg act = true) :
    buildRequest cfg action kw
      = .ok ⟨m, cfg.api_uri ++ act,
          [("Cache-Control", "no-cache"),
           ("Content-Type", "application/x-www-form-urlencoded")],
          .form (injectAuth cfg.auth (withLanguage cfg (snake_to_camel kw)))⟩ := by
  rw [buildRequest, hkw, hra]
  simp [Bind.bind, Except.bind, hm, hcl]
  rfl

theorem buildRequest_wallet (cfg : Config) (action act : String) (kw : Dct) (m : String)
    (hm : cfg.http_method = some m)
    (hkw : snake_to_camelE kw = .ok (snake_to_camel kw))
    (hra : resolveAction cfg action = .ok act)
    (hcl : isClassic cfg act = false) :
    buildRequest cfg action kw
      = .ok ⟨"POST", cfg.api_uri ++ act,
          [("Cache-Control", "no-cache"), ("Content-Type", "application/json")],
          .jsonBody (withLanguage cfg (snake_to_camel kw))⟩ := by
  rw [buildRequest, hkw, hra]
  simp [Bind.bind, Except.bind, hm, hcl]
  rfl

/-
Claim C7.
-/

/-- C7 counterexample: the Apple Pay recurring and Samsung Pay
merchant-hosted actions pass the relative literals
`payment/recurrentPayment.do` and `payment/samsungWeb/payment.do`
(no leading slash), so `execute` prepends the default REST prefix: under
the default configuration the resolved path starts with
`/payment/rest/` and is classified classic, and under an overridden
default prefix the resolved path changes — contradicting both the
claimed absolute paths outside the prefixes and the claimed independence
from the prefix configuration. -/
theorem C7_counterexample :
    pay_with_applepay_recurrent cfgTok (.vstr "1") (.vint 100) (.vstr "b") [] .connFail
      = execute cfgTok "payment/recurrentPayment.do"
          (dSet (dSet (dSet [] "orderNumber" (.vstr "1")) "amount" (.vint 100))
            "binding_id" (.vstr "b")) .connFail ∧
    resolveAction cfgTok "payment/recurrentPayment.do"
      = .ok "/payment/rest/payment/recurrentPayment.do" ∧
    beginsWith "/payment/rest/".data "/payment/rest/payment/recurrentPayment.do".data = true ∧
    isClassic cfgTok "/payment/rest/payment/recurrentPayment.do" = true ∧
    resolveAction
        ⟨"https://bank", .token (.vstr "tok"), .vnone, .vnone, "/alt/", "/payment/applepay/",
         "/payment/google/", "/payment/samsung/", some "GET"⟩
        "payment/recurrentPayment.do"
      = .ok "/alt/payment/recurrentPayment.do" ∧
    pay_with_samsungpay_web cfgTok (.vstr "m") (.vstr "u") .connFail
      = execute cfgTok "payment/samsungWeb/payment.do"
          [("mdOrder", .vstr "m"), ("onFailedPaymentBackUrl", .vstr "u")] .connFail ∧
    resolveAction cfgTok "payment/samsungWeb/payment.do"
      = .ok "/payment/rest/payment/samsungWeb/payment.do" ∧
    isClassic cfgTok "/payment/rest/payment/samsungWeb/payment.do" = true :=
  ⟨rfl, rfl, rfl, rfl, rfl, rfl, rfl, rfl⟩

/-- C7 (amended): the two actions pass fixed relative paths, which
`execute` resolves by prepending the configured default REST prefix; the
request is therefore issued on a path that starts with that prefix, is
classified classic (form body, credentials injected, configured verb),
and follows the prefix configuration.  The kwargs of each call are
assumed to survive the case translation (no key of only separators),
which the fixed keys the actions add always do. -/
theorem C7_relative_paths :
    ∀ (cfg : Config) (m : String) (onum amt bid mdo burl : Val) (kw : Dct) (oc : Outcome),
      cfg.http_method = some m →
      snakeSafeDict (dSet (dSet (dSet kw "orderNumber" onum) "amount" amt)
        "binding_id" bid) = true →
      snakeSafeDict [("mdOrder", mdo), ("onFailedPaymentBackUrl", burl)] = true →
      (pay_with_applepay_recurrent cfg onum amt bid kw oc
        = execute cfg "payment/recurrentPayment.do"
            (dSet (dSet (dSet kw "orderNumber" onum) "amount" amt) "binding_id" bid) oc) ∧
      buildRequest cfg "payment/recurrentPayment.do"
          (dSet (dSet (dSet kw "orderNumber" onum) "amount" amt) "binding_id" bid)
        = .ok ⟨m, cfg.api_uri ++ (cfg.prefix_default ++ "payment/recurrentPayment.do"),
            [("Cache-Control", "no-cache"),
             ("Content-Type", "application/x-www-form-urlencoded")],
            .form (injectAuth cfg.auth (withLanguage cfg (snake_to_camel
              (dSet (dSet (dSet kw "orderNumber" onum) "amount" amt) "binding_id" bid))))⟩ ∧
      (pay_with_samsungpay_web cfg mdo burl oc
        = execute cfg "payment/samsungWeb/payment.do"
            [("mdOrder", mdo), ("onFailedPaymentBackUrl", burl)] oc) ∧
      buildRequest cfg "payment/samsungWeb/payment.do"
          [("mdOrder", mdo), ("onFailedPaymentBackUrl", burl)]
        = .ok ⟨m, cfg.api_uri ++ (cfg.prefix_default ++ "payment/samsungWeb/payment.do"),
            [("Cache-Control", "no-cache"),
             ("Content-Type", "application/x-www-form-urlencoded")],
            .form (injectAuth cfg.auth (withLanguage cfg (snake_to_camel
              [("mdOrder", mdo), ("onFailedPaymentBackUrl", burl)])))⟩ := by
  intro cfg m onum amt bid mdo burl kw oc hm hs1 hs2
  refine ⟨rfl, ?_, rfl, ?_⟩
  · exact buildRequest_classic cfg "payment/recurrentPayment.do"
      (cfg.prefix_default ++ "payment/recurrentPayment.do") _ m hm
      (snake_to_camelE_of_safe _ hs1) rfl
      (isClassic_self_append cfg "payment/recurrentPayment.do")
  · exact buildRequest_classic cfg "payment/samsungWeb/payment.do"
      (cfg.prefix_default ++ "payment/samsungWeb/payment.do") _ m hm
      (snake_to_camelE_of_safe _ hs2) rfl
      (isClassic_self_append cfg "payment/samsungWeb/payment.do")

/-- C7 witness: the amended statement evaluated on a concrete client. -/
theorem C7_relative_paths_witness :
    buildRequest cfgTok "payment/recurrentPayment.do"
        (dSet (dSet (dSet [] "orderNumber" (.vstr "1")) "amount" (.vint 100))
          "binding_id" (.vstr "b"))
      = .ok ⟨"GET", "https://bank" ++ ("/payment/rest/" ++ "payment/recurrentPayment.do"),
          [("Cache-Control", "no-cache"),
           ("Content-Type", "application/x-www-form-urlencoded")],
          .form (injectAuth cfgTok.auth (withLanguage cfgTok (snake_to_camel
            (dSet (dSet (dSet [] "orderNumber" (.vstr "1")) "amount" (.vint 100))
              "binding_id" (.vstr "b")))))⟩ :=
  (C7_relative_paths cfgTok "GET" (.vstr "1") (.vint 100) (.vstr "b") (.vstr "m") (.vstr "u")
    [] .connFail rfl (by decide) (by decide)).2.1

theorem dFind_withLanguage_ne (cfg : Config) (d : Dct) (k : String) (h : k ≠ "language") :
    dFind (withLanguage cfg d) k = dFind d k := by
  rw [withLanguage]
  split
  · rw [dFind_dSet_ne _ _ _ _ h]
  · rfl

/-
Claim C4.
-/

/-- C4: on a wallet path (the resolved action does not contain the
configured default REST prefix) the built request always uses the POST
verb — whatever verb the client was configured with — carries the JSON
content type, and its body is exactly the translated kwargs (plus the
default language): the stored credentials are never injected, so the
credential fields reach the body only if the caller put them in the
kwargs. -/
theorem C4_wallet_requests :
    ∀ (cfg : Config) (action act : String) (kw : Dct) (m : String) (req : Request),
      cfg.http_method = some m →
      resolveAction cfg action = .ok act →
      isClassic cfg act = false →
      buildRequest cfg action kw = .ok req →
      req.method = "POST" ∧
      req.headers = [("Cache-Control", "no-cache"), ("Content-Type", "application/json")] ∧
      req.body = .jsonBody (withLanguage cfg (snake_to_camel kw)) ∧
      dFind (withLanguage cfg (snake_to_camel kw)) "token" = dFind (snake_to_camel kw) "token" ∧
      dFind (withLanguage cfg (snake_to_camel kw)) "userName"
        = dFind (snake_to_camel kw) "userName" ∧
      dFind (withLanguage cfg (snake_to_camel kw)) "password"
        = dFind (snake_to_camel kw) "password" := by
  intro cfg action act kw m req hm hra hcl hbr
  rw [buildRequest_wallet cfg action act kw m hm (buildRequest_translate_ok hbr) hra hcl] at hbr
  have hreq : req = ⟨"POST", cfg.api_uri ++ act,
      [("Cache-Control", "no-cache"), ("Content-Type", "application/json")],
      .jsonBody (withLanguage cfg (snake_to_camel kw))⟩ := by
    cases hbr
    rfl
  subst hreq
  exact ⟨rfl, rfl, rfl, dFind_withLanguage_ne cfg _ _ (by decide),
    dFind_withLanguage_ne cfg _ _ (by decide), dFind_withLanguage_ne cfg _ _ (by decide)⟩

/-- C4 witness: a GET-configured token client issuing the Apple Pay
payment action still produces a POST JSON request without credentials. -/
theorem C4_wallet_requests_witness :
    buildRequest cfgTok "/payment/applepay/payment.do" [("order_number", Val.vstr "1")]
      = .ok ⟨"POST", "https://bank/payment/applepay/payment.do",
          [("Cache-Control", "no-cache"), ("Content-Type", "application/json")],
          .jsonBody [("orderNumber", Val.vstr "1")]⟩ ∧
    (⟨"POST", "https://bank/payment/applepay/payment.do",
        [("Cache-Control", "no-cache"), ("Content-Type", "application/json")],
        .jsonBody [("orderNumber", Val.vstr "1")]⟩ : Request).method = "POST" ∧
    dFind ([("orderNumber", Val.vstr "1")] : Dct) "token" = none :=
  ⟨rfl,
   (C4_wallet_requests cfgTok "/payment/applepay/payment.do" "/payment/applepay/payment.do"
      [("order_number", Val.vstr "1")] "GET"
      ⟨"POST", "https://bank/payment/applepay/payment.do",
        [("Cache-Control", "no-cache"), ("Content-Type", "application/json")],
        .jsonBody [("orderNumber", Val.vstr "1")]⟩ rfl rfl rfl rfl).1,
   rfl⟩

/-
Claim C5.
-/

/-- C5: on a classic path (the resolved action contains the configured
default REST prefix) the built request uses the configured verb and the
form-urlencoded content type, and its form body is the translated kwargs
with exactly the held credentials injected: a token client's body carries
the `token` field while its `userName` and `password` entries are
whatever the caller's kwargs contained (absent when not passed), and a
username/password client's body carries `userName` and `password` while
its `token` entry is whatever the caller's kwargs contained. -/
theorem C5_classic_requests :
    ∀ (cfg : Config) (action act : String) (kw : Dct) (m : String) (req : Request),
      cfg.http_method = some m →
      resolveAction cfg action = .ok act →
      isClassic cfg act = true →
      buildRequest cfg action kw = .ok req →
      req.method = m ∧
      req.headers = [("Cache-Control", "no-cache"),
        ("Content-Type", "application/x-www-form-urlencoded")] ∧
      (∀ t, cfg.auth = .token t →
        req.body = .form (dSet (withLanguage cfg (snake_to_camel kw)) "token" t) ∧
        dGet (dSet (withLanguage cfg (snake_to_camel kw)) "token" t) "token" = t ∧
        dFind (dSet (withLanguage cfg (snake_to_camel kw)) "token" t) "userName"
          = dFind (snake_to_camel kw) "userName" ∧
        dFind (dSet (withLanguage cfg (snake_to_camel kw)) "token" t) "password"
          = dFind (snake_to_camel kw) "password") ∧
      (∀ u p, cfg.auth = .userPass u p →
        req.body = .form (dSet (dSet (withLanguage cfg (snake_to_camel kw)) "userName" u)
          "password" p) ∧
        dGet (dSet (dSet (withLanguage cfg (snake_to_camel kw)) "userName" u) "password" p)
          "password" = p ∧
        dGet (dSet (dSet (withLanguage cfg (snake_to_camel kw)) "userName" u) "password" p)
          "userName" = u ∧
        dFind (dSet (dSet (withLanguage cfg (snake_to_camel kw)) "userName" u) "password" p)
          "token" = dFind (snake_to_camel kw) "token") := by
  intro cfg action act kw m req hm hra hcl hbr
  rw [buildRequest_classic cfg action act kw m hm (buildRequest_translate_ok hbr) hra hcl] at hbr
  have hreq : req = ⟨m, cfg.api_uri ++ act,
      [("Cache-Control", "no-cache"),
       ("Content-Type", "application/x-www-form-urlencoded")],
      .form (injectAuth cfg.auth (withLanguage cfg (snake_to_camel kw)))⟩ := by
    cases hbr
    rfl
  subst hreq
  refine ⟨rfl, rfl, ?_, ?_⟩
  · intro t ht
    rw [injectAuth.eq_def, ht]
    refine ⟨rfl, dGet_dSet_self _ _ _, ?_, ?_⟩
    · rw [dFind_dSet_ne _ _ _ _ (by decide), dFind_withLanguage_ne cfg _ _ (by decide)]
    · rw [dFind_dSet_ne _ _ _ _ (by decide), dFind_withLanguage_ne cfg _ _ (by decide)]
  · intro u p hup
    rw [injectAuth.eq_def, hup]
    refine ⟨rfl, dGet_dSet_self _ _ _, ?_, ?_⟩
    · rw [dGet_dSet_ne _ _ _ _ (by decide), dGet_dSet_self]
    · rw [dFind_dSet_ne _ _ _ _ (by decide), dFind_dSet_ne _ _ _ _ (by decide),
        dFind_withLanguage_ne cfg _ _ (by decide)]

/-- C5 witness: a token client and a username/password client issuing the
classic deposit action; the bodies carry exactly the respective
credentials. -/
theorem C5_classic_requests_witness :
    buildRequest cfgTok "deposit.do" [("order_id", Val.vstr "7")]
      = .ok ⟨"GET", "https://bank/payment/rest/deposit.do",
          [("Cache-Control", "no-cache"),
           ("Content-Type", "application/x-www-form-urlencoded")],
          .form [("orderId", Val.vstr "7"), ("token", Val.vstr "tok")]⟩ ∧
    (⟨"GET", "https://bank/payment/rest/deposit.do",
        [("Cache-Control", "no-cache"),
         ("Content-Type", "application/x-www-form-urlencoded")],
        .form [("orderId", Val.vstr "7"), ("token", Val.vstr "tok")]⟩ : Request).method = "GET" ∧
    dFind (dSet (withLanguage cfgTok (snake_to_camel [("order_id", Val.vstr "7")]))
      "token" (Val.vstr "tok")) "userName" = none ∧
    buildRequest cfgUP "deposit.do" [("order_id", Val.vstr "7")]
      = .ok ⟨"POST", "https://bank/payment/rest/deposit.do",
          [("Cache-Control", "no-cache"),
           ("Content-Type", "application/x-www-form-urlencoded")],
          .form [("orderId", Val.vstr "7"), ("userName", Val.vstr "u"),
                 ("password", Val.vstr "p")]⟩ ∧
    dFind (dSet (dSet (withLanguage cfgUP (snake_to_camel [("order_id", Val.vstr "7")]))
      "userName" (Val.vstr "u")) "password" (Val.vstr "p")) "token" = none :=
  ⟨rfl,
   (C5_classic_requests cfgTok "deposit.do" "/payment/rest/deposit.do"
      [("order_id", Val.vstr "7")] "GET"
      ⟨"GET", "https://bank/payment/rest/deposit.do",
        [("Cache-Control", "no-cache"),
         ("Content-Type", "application/x-www-form-urlencoded")],
        .form [("orderId", Val.vstr "7"), ("token", Val.vstr "tok")]⟩
      rfl rfl rfl rfl).1,
   ((C5_classic_requests cfgTok "deposit.do" "/payment/rest/deposit.do"
      [("order_id", Val.vstr "7")] "GET"
      ⟨"GET", "https://bank/payment/rest/deposit.do",
        [("Cache-Control", "no-cache"),
         ("Content-Type", "application/x-www-form-urlencoded")],
        .form [("orderId", Val.vstr "7"), ("token", Val.vstr "tok")]⟩
      rfl rfl rfl rfl).2.2.1 (Val.vstr "tok") rfl).2.2.1,
   rfl,
   ((C5_classic_requests cfgUP "deposit.do" "/payment/rest/deposit.do"
      [("order_id", Val.vstr "7")] "POST"
      ⟨"POST", "https://bank/payment/rest/deposit.do",
        [("Cache-Control", "no-cache"),
         ("Content-Type", "application/x-www-form-urlencoded")],
        .form [("orderId", Val.vstr "7"), ("userName", Val.vstr "u"),
               ("password", Val.vstr "p")]⟩
      rfl rfl rfl rfl).2.2.2 (Val.vstr "u") (Val.vstr "p") rfl).2.2.2⟩

/-
Claim C8.
-/

/-- C8: once the request is built, a transport connection failure is
observed as the network error with the fixed Russian message — not the
transport's own exception type — while a non-200 status propagates as the
bad-response error with that status and an error raised by the response
check (an ActionException, or the AttributeError of the chained `.get`)
propagates unchanged. -/
theorem C8_network_errors :
    ∀ (cfg : Config) (action : String) (kw : Dct) (req : Request),
      buildRequest cfg action kw = .ok req →
      execute cfg action kw .connFail = .error (.network "Сбербанк недоступен") ∧
      (∀ st body, st ≠ 200 → execute cfg action kw (.resp st body) = .error (.badResponse st)) ∧
      (∀ body em ec, handle_errors body = .error (.actionE em ec) →
        execute cfg action kw (.resp 200 body) = .error (.actionE em ec)) ∧
      (∀ body, handle_errors body = .error .attributeError →
        execute cfg action kw (.resp 200 body) = .error .attributeError) := by
  intro cfg action kw req hbr
  refine ⟨?_, ?_, ?_, ?_⟩
  · rw [execute.eq_def, hbr]
    rfl
  · intro st body hst
    rw [execute.eq_def, hbr]
    simp [Bind.bind, Except.bind, hst]
  · intro body em ec hhe
    rw [execute.eq_def, hbr]
    simp [Bind.bind, Except.bind, hhe]
  · intro body hhe
    rw [execute.eq_def, hbr]
    simp [Bind.bind, Except.bind, hhe]

/-- C8 witness: a concrete client observing a connection failure, an
HTTP 500, and a gateway error code 5. -/
theorem C8_network_errors_witness :
    execute cfgTok "register.do" [] .connFail = .error (.network "Сбербанк недоступен") ∧
    execute cfgTok "register.do" [] (.resp 500 []) = .error (.badResponse 500) ∧
    execute cfgTok "register.do" [] (.resp 200 [("errorCode", .vint 5)])
      = .error (.actionE (.vstr "Неизвестная ошибка") (.vint 5)) :=
  ⟨(C8_network_errors cfgTok "register.do" []
      ⟨"GET", "https://bank/payment/rest/register.do",
        [("Cache-Control", "no-cache"),
         ("Content-Type", "application/x-www-form-urlencoded")],
        .form [("token", Val.vstr "tok")]⟩ rfl).1,
   (C8_network_errors cfgTok "register.do" []
      ⟨"GET", "https://bank/payment/rest/register.do",
        [("Cache-Control", "no-cache"),
         ("Content-Type", "application/x-www-form-urlencoded")],
        .form [("token", Val.vstr "tok")]⟩ rfl).2.1 500 [] (by decide),
   (C8_network_errors cfgTok "register.do" []
      ⟨"GET", "https://bank/payment/rest/register.do",
        [("Cache-Control", "no-cache"),
         ("Content-Type", "application/x-www-form-urlencoded")],
        .form [("token", Val.vstr "tok")]⟩ rfl).2.2.1 [("errorCode", .vint 5)]
      (.vstr "Неизвестная ошибка") (.vint 5) rfl⟩

/-
The error check against the documented field priorities.
-/

/-- `_handle_errors` computes exactly the documented code and message
selections and raises when the coerced code differs from the success
sentinel. -/
theorem handle_errors_as_selectors (r : Dct) :
    handle_errors r =
      (do
        let c ← resolvedErrorCode r
        let m ← resolvedErrorMessage r
        if pyEqZero c then pure () else Except.error (.actionE m c)) := by
  rw [handle_errors, resolvedErrorCode]
  by_cases t1 : truthy (dGet r "errorCode") = true
  · simp only [t1, Bind.bind, Except.bind, pure, Except.pure, resolvedErrorMessage, if_true]
    by_cases m1 : truthy (dGet r "errorMessage") = true
    · simp [m1]
    · by_cases m2 : truthy (dGet r "ErrorMessage") = true
      · simp [m1, m2]
      · cases hm : errField r "message" with
        | error e => simp [m1, m2, hm]
        | ok w =>
            by_cases mw : truthy w = true
            · simp [m1, m2, hm, mw]
            · cases hd : errField r "description" with
              | error e => simp [m1, m2, hm, mw, hd]
              | ok d => simp [m1, m2, hm, mw, hd]
  · by_cases t2 : truthy (dGet r "ErrorMessage") = true
    · simp only [t1, t2, Bind.bind, Except.bind, pure, Except.pure, resolvedErrorMessage,
        if_true, if_false, Bool.false_eq_true]
      by_cases m1 : truthy (dGet r "errorMessage") = true
      · simp [m1]
      · simp [m1, t2]
    · cases herr : errField r "code" with
      | error e => simp [t1, t2, herr, Bind.bind, Except.bind]
      | ok v =>
          simp only [t1, t2, herr, Bind.bind, Except.bind, pure, Except.pure,
            resolvedErrorMessage, if_true, if_false, Bool.false_eq_true]
          by_cases m1 : truthy (dGet r "errorMessage") = true
          · simp [m1]
          · cases hm : errField r "message" with
            | error e => simp [m1, t2, hm]
            | ok w =>
                by_cases mw : truthy w = true
                · simp [m1, t2, hm, mw]
                · cases hd : errField r "description" with
                  | error e => simp [m1, t2, hm, mw, hd]
                  | ok d => simp [m1, t2, hm, mw, hd]

theorem errField_ok {r : Dct} (hd : errorFieldIsDict r = true) (k : String) :
    ∃ v, errField r k = .ok v := by
  rw [errorFieldIsDict] at hd
  cases h : dGetD r "error" (.vdict []) with
  | vstr s => rw [h] at hd; simp [isDict] at hd
  | vint n => rw [h] at hd; simp [isDict] at hd
  | vbool b => rw [h] at hd; simp [isDict] at hd
  | vnone => rw [h] at hd; simp [isDict] at hd
  | vdict d => exact ⟨dGet d k, by rw [errField, h]⟩

theorem errField_error {r : Dct} {k : String} {e : PyErr} (h : errField r k = .error e) :
    e = .attributeError := by
  rw [errField] at h
  split at h
  · cases h
  · cases h
    rfl

theorem resolvedErrorCode_error {r : Dct} {e : PyErr} (h : resolvedErrorCode r = .error e) :
    e = .attributeError := by
  rw [resolvedErrorCode] at h
  by_cases t1 : truthy (dGet r "errorCode") = true
  · simp [t1, Bind.bind, Except.bind, pure, Except.pure] at h
  · by_cases t2 : truthy (dGet r "ErrorMessage") = true
    · simp [t1, t2, Bind.bind, Except.bind, pure, Except.pure] at h
    · cases herr : errField r "code" with
      | error e2 =>
          simp [t1, t2, herr, Bind.bind, Except.bind] at h
          rw [← h]
          exact errField_error herr
      | ok v => simp [t1, t2, herr, Bind.bind, Except.bind, pure, Except.pure] at h

theorem resolvedErrorMessage_error {r : Dct} {e : PyErr}
    (h : resolvedErrorMessage r = .error e) : e = .attributeError := by
  rw [resolvedErrorMessage] at h
  by_cases m1 : truthy (dGet r "errorMessage") = true
  · simp [m1, pure, Except.pure] at h
  · by_cases m2 : truthy (dGet r "ErrorMessage") = true
    · simp [m1, m2, pure, Except.pure] at h
    · cases hm : errField r "message" with
      | error e2 =>
          simp [m1, m2, hm, Bind.bind, Except.bind] at h
          rw [← h]
          exact errField_error hm
      | ok w =>
          by_cases mw : truthy w = true
          · simp [m1, m2, hm, mw, Bind.bind, Except.bind, pure, Except.pure] at h
          · cases hdd : errField r "description" with
            | error e2 =>
                simp [m1, m2, hm, mw, hdd, Bind.bind, Except.bind] at h
                rw [← h]
                exact errField_error hdd
            | ok d =>
                simp [m1, m2, hm, mw, hdd, Bind.bind, Except.bind, pure, Except.pure] at h

theorem resolvedErrorMessage_ok {r : Dct} (hd : errorFieldIsDict r = true) :
    ∃ m, resolvedErrorMessage r = .ok m := by
  cases h : resolvedErrorMessage r with
  | ok m => exact ⟨m, rfl⟩
  | error e =>
      exfalso
      have he := resolvedErrorMessage_error h
      subst he
      rw [resolvedErrorMessage] at h
      by_cases m1 : truthy (dGet r "errorMessage") = true
      · simp [m1, pure, Except.pure] at h
      · by_cases m2 : truthy (dGet r "ErrorMessage") = true
        · simp [m1, m2, pure, Except.pure] at h
        · obtain ⟨w, hw⟩ := errField_ok hd "message"
          by_cases mw : truthy w = true
          · simp [m1, m2, hw, mw, Bind.bind, Except.bind, pure, Except.pure] at h
          · obtain ⟨d, hdd⟩ := errField_ok hd "description"
            simp [m1, m2, hw, mw, hdd, Bind.bind, Except.bind, pure, Except.pure] at h

/-
Claim C2.
-/

/-- C2 counterexample: the response `{"errorCode": "0", "error": 5}`
resolves, by the documented field priority with string-to-integer
coercion, to the success sentinel 0, yet the error check raises
AttributeError (the message resolution calls `.get` on the non-dict value
under `error`), so `execute` does not return successfully. -/
theorem C2_counterexample :
    resolvedErrorCode [("errorCode", Val.vstr "0"), ("error", Val.vint 5)] = .ok (.vint 0) ∧
    handle_errors [("errorCode", Val.vstr "0"), ("error", Val.vint 5)]
      = .error .attributeError ∧
    execute cfgTok "register.do" []
        (.resp 200 [("errorCode", Val.vstr "0"), ("error", Val.vint 5)])
      = .error .attributeError :=
  ⟨rfl, rfl, rfl⟩

/-- C2 (amended): for every decoded response whose documented-priority
error code resolves to the success sentinel 0 and whose `error` field,
when consulted as a fallback, is a mapping (so the chained `.get` calls
cannot raise), the error check raises no exception and `execute` returns
the response translated to caller case — in particular for
`{"errorCode": 0}` and for a response with no error fields. -/
theorem C2_success_sentinel :
    ∀ (cfg : Config) (action : String) (kw : Dct) (req : Request) (r : Dct),
      buildRequest cfg action kw = .ok req →
      resolvedErrorCode r = .ok (.vint 0) →
      errorFieldIsDict r = true →
      handle_errors r = .ok () ∧
      execute cfg action kw (.resp 200 r) = .ok (camel_to_snake r) := by
  intro cfg action kw req r hbr hc hd
  obtain ⟨m, hms⟩ := resolvedErrorMessage_ok hd
  have hhe : handle_errors r = .ok () := by
    rw [handle_errors_as_selectors, hc, hms]
    simp [Bind.bind, Except.bind, pure, Except.pure, pyEqZero]
  refine ⟨hhe, ?_⟩
  rw [execute.eq_def, hbr]
  simp [Bind.bind, Except.bind, hhe, pure, Except.pure]

/-- C2 witness: the success case evaluated at `{"errorCode": 0}` and at
the empty response. -/
theorem C2_success_sentinel_witness :
    (handle_errors [("errorCode", Val.vint 0)] = .ok () ∧
      execute cfgTok "register.do" [] (.resp 200 [("errorCode", Val.vint 0)])
        = .ok (camel_to_snake [("errorCode", Val.vint 0)])) ∧
    (handle_errors [] = .ok () ∧
      execute cfgTok "register.do" [] (.resp 200 [])
        = .ok (camel_to_snake [])) :=
  ⟨C2_success_sentinel cfgTok "register.do" []
      ⟨"GET", "https://bank/payment/rest/register.do",
        [("Cache-Control", "no-cache"),
         ("Content-Type", "application/x-www-form-urlencoded")],
        .form [("token", Val.vstr "tok")]⟩
      [("errorCode", Val.vint 0)] rfl rfl rfl,
   C2_success_sentinel cfgTok "register.do" []
      ⟨"GET", "https://bank/payment/rest/register.do",
        [("Cache-Control", "no-cache"),
         ("Content-Type", "application/x-www-form-urlencoded")],
        .form [("token", Val.vstr "tok")]⟩
      [] rfl rfl rfl⟩

/-
Claim C3.
-/

/-- C3 counterexample: the response `{"errorCode": 7, "error": "x"}`
indicates an error (the documented priority resolves code 7, which
differs from the success sentinel), yet no ActionError is raised: the
error check raises AttributeError while resolving the message from the
non-dict value under `error`. -/
theorem C3_counterexample :
    resolvedErrorCode [("errorCode", Val.vint 7), ("error", Val.vstr "x")] = .ok (.vint 7) ∧
    pyEqZero (.vint 7) = false ∧
    handle_errors [("errorCode", Val.vint 7), ("error", Val.vstr "x")]
      = .error .attributeError :=
  ⟨rfl, rfl, rfl⟩

/-- C3 (amended): whenever the error check raises an ActionError, its
code is the one selected by the fixed priority errorCode → ErrorMessage →
error.code with digit strings coerced to integers, and its message is the
one selected by errorMessage → ErrorMessage → error.message →
error.description with the generic unknown-error default; conversely a
response whose resolutions succeed with a non-sentinel code raises
exactly that ActionError (responses whose message resolution hits a
non-mapping `error` value raise AttributeError instead); in particular
`{"errorCode": "5", "errorMessage": "Order not found"}` yields code 5 and
message "Order not found". -/
theorem C3_error_priority :
    (∀ r em ec, handle_errors r = .error (.actionE em ec) →
        resolvedErrorCode r = .ok ec ∧ resolvedErrorMessage r = .ok em ∧
        pyEqZero ec = false) ∧
    (∀ r c em, resolvedErrorCode r = .ok c → pyEqZero c = false →
        resolvedErrorMessage r = .ok em →
        handle_errors r = .error (.actionE em c)) ∧
    handle_errors [("errorCode", Val.vstr "5"), ("errorMessage", Val.vstr "Order not found")]
      = .error (.actionE (.vstr "Order not found") (.vint 5)) := by
  refine ⟨?_, ?_, rfl⟩
  · intro r em ec h
    rw [handle_errors_as_selectors] at h
    cases hc : resolvedErrorCode r with
    | error e =>
        rw [hc] at h
        simp [Bind.bind, Except.bind] at h
        have := resolvedErrorCode_error hc
        subst this
        cases h
    | ok c =>
        rw [hc] at h
        cases hm : resolvedErrorMessage r with
        | error e =>
            rw [hm] at h
            simp [Bind.bind, Except.bind] at h
            have := resolvedErrorMessage_error hm
            subst this
            cases h
        | ok m =>
            rw [hm] at h
            by_cases hz : pyEqZero c = true
            · simp [Bind.bind, Except.bind, hz, pure, Except.pure] at h
            · simp [Bind.bind, Except.bind, hz, pure, Except.pure] at h
              obtain ⟨hm2, hc2⟩ := h
              subst hm2
              subst hc2
              exact ⟨by simp [hc], by simp [hm], by simpa using hz⟩
  · intro r c em hc hz hm
    rw [handle_errors_as_selectors, hc, hm]
    simp [Bind.bind, Except.bind, hz, pure, Except.pure]

/-- C3 witness: the documented resolutions evaluated on the claim's
concrete response. -/
theorem C3_error_priority_witness :
    resolvedErrorCode [("errorCode", Val.vstr "5"), ("errorMessage", Val.vstr "Order not found")]
      = .ok (.vint 5) ∧
    resolvedErrorMessage
        [("errorCode", Val.vstr "5"), ("errorMessage", Val.vstr "Order not found")]
      = .ok (.vstr "Order not found") ∧
    pyEqZero (.vint 5) = false :=
  C3_error_priority.1
    [("errorCode", Val.vstr "5"), ("errorMessage", Val.vstr "Order not found")]
    (.vstr "Order not found") (.vint 5) rfl
